import Mathlib

/-!
Verification development for the UK-Parliament-Library change-tracking core
(`src/ukparliament`).  The Python source is shallowly embedded: mutable
objects become records threaded through functions, `async` methods returning
values or raising become functions returning `Except String _` (a Python
exception does not roll back mutations already performed on `self`, so
stateful operations return their post-state alongside the `Except` result),
timestamps (`datetime.timestamp()`) become `Int`, and the pluggable storage
interfaces become records of operations over an abstract state type.
-/

namespace UKParl

/-- The character-level worker for Python's `str.split(sep)`.  Fuel-bounded
structural recursion (the fuel never runs out when it starts at the input
length and the separator is non-empty, as in every use by the source) so
that every use is kernel-evaluable. -/
def split_chars (sep : List Char) : Nat → List Char → List (List Char)
  | _, [] => [[]]
  | 0, s => [s]
  | fuel + 1, c :: rest =>
    if sep.isPrefixOf (c :: rest) then
      [] :: split_chars sep fuel ((c :: rest).drop sep.length)
    else
      match split_chars sep fuel rest with
      | [] => [[c]]
      | seg :: segs => (c :: seg) :: segs

/-- Python's `s.split(sep)` for a non-empty separator (Python raises on an
empty one; the source always splits on `"/"` or `"Bill"`). -/
def py_split (s sep : String) : List String :=
  (split_chars sep.data s.data.length s.data).map String.mk

/-- Python's `s.startswith(pre)`. -/
def py_startswith (s pre : String) : Bool :=
  pre.data.isPrefixOf s.data

/-- Python's `s.lower()` (ASCII case folding suffices for the source's
category and stage strings). -/
def py_lower (s : String) : String :=
  ⟨s.data.map Char.toLower⟩

/-- Python's `int(s)` on the canonically-numeric id strings the source
feeds it (Python raises on anything else; the fold returns garbage there,
and no input of this development is non-numeric). -/
def py_int (s : String) : Nat :=
  s.data.foldl (fun acc c => acc * 10 + (c.toNat - 48)) 0

/-- Python's `needle in s` substring test for the non-empty needles used by
the source: `s.split(needle)` has at least two parts iff `needle` occurs. -/
def py_contains (s pat : String) : Bool :=
  (py_split s pat).length != 1

/-- `bills_tracker.Conditions`: the closed enumeration of listener
conditions.  The positional tuple values of the Python enum are irrelevant
to behaviour and are not modelled. -/
inductive Conditions where
  | PUBLICATIONS
  | LORDS
  | COMMONS
  | GOV_BILL
  | PRI_BILL
  | ROYAL_ASSENT
  | ALL
deriving DecidableEq, Repr

/-- One `<item>` entry of the aggregate bills RSS feed, as seen by
`FeedUpdate.__init__` after XML parsing: the `guid` text, the optional
`p4:stage` attribute, the `<category>` texts, title, description, and the
`a10:updated` date (both accepted date formats parse to a timestamp, which
we carry directly as an `Int`). -/
structure Item where
  guid : String
  stage : Option String
  categories : List String
  title : String
  description : String
  updated : Int
deriving DecidableEq, Repr

/-- `bills_tracker.FeedUpdate`: the parsed form of an aggregate-feed entry. -/
structure FeedUpdate where
  stage : Option String
  guid : String
  bill_id : String
  categories : List String
  title : String
  description : String
  updated : Int
deriving DecidableEq, Repr

/-- `FeedUpdate.__init__`: `bill_id` is the last `/`-segment of the guid,
categories are lowercased; the `<description>` tag stripping is plain text
cleanup and the description is carried as given. -/
def FeedUpdate.ofItem (it : Item) : FeedUpdate where
  stage := it.stage
  guid := it.guid
  bill_id := (py_split it.guid "/").getLastD it.guid
  categories := it.categories.map py_lower
  title := it.title
  description := it.description
  updated := it.updated

/-- One `<item>` of an individual bill's publications RSS feed, as read by
`PublicationUpdate.__init__` (`pubdate` parsed to a timestamp). -/
structure PubItem where
  guid : String
  category : String
  title : String
  description : String
  pubdate : Int
deriving DecidableEq, Repr

/-- `bills_tracker.PublicationUpdate`. -/
structure PublicationUpdate where
  guid : String
  category : String
  title : String
  description : String
  publication_date : Int
deriving DecidableEq, Repr

def PublicationUpdate.ofItem (it : PubItem) : PublicationUpdate where
  guid := it.guid
  category := it.category
  title := it.title
  description := it.description
  publication_date := it.pubdate

/-- `bills_tracker.Feed`: the per-bill feed object.  `bill_id` is the last
`/`-segment of the bill url; `last_update` and `last_publication_update`
start as `None`. -/
structure Feed where
  bill_url : String
  bill_id : String
  last_update : Option Int
  last_publication_update : Option Int
deriving DecidableEq, Repr

/-- `Feed.__init__(bill_url, session)`. -/
def Feed.mk_new (bill_url : String) : Feed where
  bill_url := bill_url
  bill_id := (py_split bill_url "/").getLastD bill_url
  last_update := none
  last_publication_update := none

/-- `Feed.get_id`: `int(self.bill_id)`.  Python raises on a non-numeric id;
every id in this development is numeric, and the embedding defaults to 0. -/
def Feed.get_id (f : Feed) : Nat :=
  py_int f.bill_id

/-- `Feed.process_poll_item`: parse the entry; if the feed has no last-seen
date, record the entry's date and return the update; if the entry's date is
strictly newer than the last-seen date, advance and return the update;
otherwise return `None`.  Returns the mutated feed alongside the result. -/
def Feed.process_poll_item (f : Feed) (json_object : Item) : Feed × Option FeedUpdate :=
  let update := FeedUpdate.ofItem json_object
  match f.last_update with
  | none => ({ f with last_update := some update.updated }, some update)
  | some lu =>
    if lu < update.updated then
      ({ f with last_update := some update.updated }, some update)
    else
      (f, none)

/-- The response to fetching an individual bill's publications RSS feed:
HTTP status, the channel `lastbuilddate` (as a timestamp) and the items in
document order (upstream newest-first). -/
structure PubResponse where
  status : Nat
  lastBuild : Int
  items : List PubItem
deriving DecidableEq, Repr

/-- The item scan of `Feed.fetch_newest_publications`: stop at the first
entry strictly older than the stored publication watermark, or once the
accumulated result count reaches the fetch limit; `cnt` is `len(results)`
so far. -/
def pub_scan (lpu : Option Int) (update_limit : Nat) : List PubItem → Nat → List PublicationUpdate
  | [], _ => []
  | item :: rest, cnt =>
    let update := PublicationUpdate.ofItem item
    if (match lpu with
        | some t => decide (update.publication_date < t)
        | none => false) then
      []
    else if update_limit ≤ cnt then
      []
    else
      update :: pub_scan lpu update_limit rest (cnt + 1)

/-- `Feed.fetch_newest_publications`: non-200 raises; if the stored
publication watermark is at least the channel build date, return `[]`
without touching the watermark; otherwise scan the items and set the
watermark to the channel build date. -/
def Feed.fetch_newest_publications (f : Feed) (resp : PubResponse) (update_limit : Nat) :
    Feed × Except String (List PublicationUpdate) :=
  if resp.status ≠ 200 then
    (f, .error "Couldn't fetch individual bill rss feed")
  else
    let rss_last_update := resp.lastBuild
    if (match f.last_publication_update with
        | some t => decide (rss_last_update ≤ t)
        | none => false) then
      (f, .ok [])
    else
      let results := pub_scan f.last_publication_update update_limit resp.items 0
      ({ f with last_publication_update := some rss_last_update }, .ok results)

/-- `bills_tracker.TrackerListener`: a registered callback and its condition
list.  The wrapped function `func` is arbitrary user code; it is modelled as
a function that may raise. -/
structure TrackerListener where
  func : Feed → FeedUpdate → Except String Unit
  conditionals : List Conditions

/-- `TrackerListener.meets_conditions`: `ALL` short-circuits to true;
`LORDS`/`COMMONS` test membership of the (lowercased) category list;
`ROYAL_ASSENT` tests whether the lowercased stage (or `""` when the stage is
`None`) contains the phrase "royal assent"; otherwise false. -/
def TrackerListener.meets_conditions (l : TrackerListener) (update : FeedUpdate) : Bool :=
  if Conditions.ALL ∈ l.conditionals then
    true
  else if Conditions.LORDS ∈ l.conditionals ∧ update.categories.contains "lords" then
    true
  else if Conditions.COMMONS ∈ l.conditionals ∧ update.categories.contains "commons" then
    true
  else if Conditions.ROYAL_ASSENT ∈ l.conditionals ∧
      py_contains (match update.stage with
                   | some s => py_lower s
                   | none => "") "royal assent" then
    true
  else
    false

/-- `TrackerListener.handle`: `await self.func(feed, update)`. -/
def TrackerListener.handle (l : TrackerListener) (feed : Feed) (update : FeedUpdate) :
    Except String Unit :=
  l.func feed update

/-- The observable calls a `BillsTracker._poll_task` run makes: one
`persist` per awaited `storage.add_feed_update`, one `dispatch` per handler
coroutine actually run by the final `asyncio.gather`. -/
inductive BillEvent where
  | persist (bill_id : Nat) (guid : String)
  | dispatch (listener_idx : Nat) (bill_id : Nat) (guid : String)
deriving DecidableEq, Repr

def BillEvent.isPersist : BillEvent → Bool
  | .persist _ _ => true
  | .dispatch _ _ _ => false

def BillEvent.isDispatch : BillEvent → Bool
  | .persist _ _ => false
  | .dispatch _ _ _ => true

/-- `bills_tracker.BillsStorage`: the pluggable storage interface used by
the bills tracker, over an abstract storage state `σ`; either call may
raise. -/
structure BillsStorageOps (σ : Type) where
  has_update_stored : σ → Nat → FeedUpdate → Except String Bool
  add_feed_update : σ → Nat → FeedUpdate → Except String σ

/-- A canonical `BillsStorage` implementation: record `(bill_id, guid)`
pairs, never raise.  `has_update_stored` is membership, `add_feed_update`
prepends. -/
def canonBills : BillsStorageOps (List (Nat × String)) where
  has_update_stored := fun st bill_id update => .ok ((bill_id, update.guid) ∈ st)
  add_feed_update := fun st bill_id update => .ok ((bill_id, update.guid) :: st)

/-- The listener loop of `_poll_task` (lines 464-468): for each listener
whose conditions the update meets, the handler coroutine is appended to
`handler_tasks` (but not yet run) and then `storage.add_feed_update` is
awaited.  Returns the storage state, the persist events performed, the
pending (index, listener) pairs whose handlers will be gathered, and the
first storage error, after which the loop (and the surrounding coroutine)
aborts so no pending handler ever runs. -/
def dispatch_loop (ops : BillsStorageOps σ) (bill_id : Nat) (update : FeedUpdate) :
    σ → List TrackerListener → Nat →
    σ × List BillEvent × List (Nat × TrackerListener) × Option String
  | st, [], _ => (st, [], [], none)
  | st, l :: rest, i =>
    if l.meets_conditions update = false then
      dispatch_loop ops bill_id update st rest (i + 1)
    else
      match ops.add_feed_update st bill_id update with
      | .error e => (st, [], [], some e)
      | .ok st' =>
        let (st'', evs, pend, err) := dispatch_loop ops bill_id update st' rest (i + 1)
        (st'', .persist bill_id update.guid :: evs, (i, l) :: pend, err)

/-- `await asyncio.gather(*handler_tasks)`: every pending handler coroutine
runs (a sibling is not cancelled when one raises); the first raising
handler's error is what the gather propagates. -/
def run_handlers (feed : Feed) (update : FeedUpdate) (bill_id : Nat) :
    List (Nat × TrackerListener) → List BillEvent × Option String
  | [] => ([], none)
  | (i, l) :: rest =>
    let r := l.handle feed update
    let (evs, err) := run_handlers feed update bill_id rest
    (.dispatch i bill_id update.guid :: evs,
     match r with
     | .error e => some e
     | .ok _ => err)

/-- The result of one `_poll_task` run: final storage state and feed, the
events performed before any abort, and the error propagated (if any). -/
structure BillTaskResult (σ : Type) where
  storage : σ
  feed : Feed
  events : List BillEvent
  err : Option String
deriving Repr

/-- `BillsTracker._poll_task`: process the entry against the feed's
timestamp watermark; on a fresh update consult `has_update_stored`; when
unstored, run the listener loop (appending handler coroutines and awaiting
`add_feed_update` per matching listener) and finally gather the handlers.
The guard `if self._listeners == 0` in the source compares a list with an
int and is always false, so it is not a branch here. -/
def poll_task (ops : BillsStorageOps σ) (listeners : List TrackerListener)
    (st : σ) (feed : Feed) (item : Item) : BillTaskResult σ :=
  let (feed', updOpt) := feed.process_poll_item item
  match updOpt with
  | none => ⟨st, feed', [], none⟩
  | some update =>
    match ops.has_update_stored st feed.get_id update with
    | .error e => ⟨st, feed', [], some e⟩
    | .ok true => ⟨st, feed', [], none⟩
    | .ok false =>
      match dispatch_loop ops feed.get_id update st listeners 0 with
      | (st', persists, _, some e) =>
        -- `add_feed_update` raised: the loop aborts before the gather, so
        -- the appended handler coroutines never run.
        ⟨st', feed', persists, some e⟩
      | (st', persists, pending, none) =>
        let (devs, herr) := run_handlers feed' update feed.get_id pending
        ⟨st', feed', persists ++ devs, herr⟩

/-- The mutable state of a `BillsTracker`: its per-bill feed objects and its
global last-update watermark (`self._last_update`). -/
structure TrackerState where
  feeds : List Feed
  last_update : Option Int
deriving DecidableEq, Repr

/-- The `<channel>` of the aggregate bills feed: `lastbuilddate` (as a
timestamp) and the `<item>` entries in document order. -/
structure RssChannel where
  lastBuild : Int
  items : List Item
deriving DecidableEq, Repr

/-- The response to fetching the aggregate bills feed. -/
structure RssResponse where
  status : Nat
  channel : RssChannel
deriving DecidableEq, Repr

/-- Python's `int == str` comparison: values of different types are never
equal, so this is constantly `False`. -/
def py_int_eq_str (_ : Nat) (_ : String) : Bool :=
  false

/-- `BillsTracker.get_feed(id)` as called from `poll`, where `id` is the
*string* `bill_id` sliced from the guid: each stored feed's `get_id()` is an
`int`, so the equality test `feed.get_id() == id` is `int == str` and never
succeeds; the lookup returns `None` for every argument. -/
def get_feed (feeds : List Feed) (id : String) : Option Feed :=
  feeds.findSome? (fun f => if py_int_eq_str f.get_id id then some f else none)

/-- The entry loop of `BillsTracker.poll` (lines 533-546): for each iterated
item, if the guid is already among the tracked feed urls look the feed up
with `get_feed(bill_id)` (which always misses, see `get_feed`, so the item
is skipped by `if feed is None: continue`); otherwise create and append a
new `Feed` and schedule a `_poll_task` for it.  Returns the updated feed
list and the scheduled (feed, item) tasks in iteration order. -/
def poll_entries : List Feed → List Item → List Feed × List (Feed × Item)
  | feeds, [] => (feeds, [])
  | feeds, item :: rest =>
    let bill_id := (py_split item.guid "/").getLastD item.guid
    if (feeds.map Feed.bill_url).contains item.guid then
      match get_feed feeds bill_id with
      | none => poll_entries feeds rest
      | some f =>
        let (feeds', tasks) := poll_entries feeds rest
        (feeds', (f, item) :: tasks)
    else
      let f := Feed.mk_new item.guid
      let (feeds', tasks) := poll_entries (feeds ++ [f]) rest
      (feeds', (f, item) :: tasks)

/-- The body of `BillsTracker.poll` after the iterator over the reversed
channel items has been created, parameterised by the list the `for` loop
actually iterates: non-200 raises; if the channel build date is not newer
than the global watermark the cycle is skipped; otherwise the watermark is
set to the build date *first* and then the entry loop runs.  Returns the
mutated tracker state and the scheduled per-entry tasks. -/
def poll_core (ts : TrackerState) (resp : RssResponse) (iterated : List Item) :
    TrackerState × Except String (List (Feed × Item)) :=
  if resp.status ≠ 200 then
    (ts, .error "Couldn't fetch rss feed for all bills")
  else
    let rss_last_update := resp.channel.lastBuild
    if (match ts.last_update with
        | some lu => decide (rss_last_update ≤ lu)
        | none => false) then
      (ts, .ok [])
    else
      let ts' := { ts with last_update := some rss_last_update }
      let (feeds', tasks) := poll_entries ts'.feeds iterated
      ({ ts' with feeds := feeds' }, .ok tasks)

/-- `BillsTracker.poll` as the source executes: `items` is the iterator
`reversed(soup.rss.channel.find_all("item"))`, and the debug statement
`print(f"Items: {len(list(items))}")` on line 523 exhausts that iterator
before the `for` loop runs, so the loop iterates over nothing. -/
def poll (ts : TrackerState) (resp : RssResponse) :
    TrackerState × Except String (List (Feed × Item)) :=
  poll_core ts resp []

/-! ### `utils.load_data`: the paginated fetcher -/

/-- The JSON of the initial request `session.get(url)`: HTTP status and the
optional provider-specific total-count fields. -/
structure InitResponse where
  status : Nat
  totalResults : Option Int
  totalItems : Option Int
deriving DecidableEq, Repr

/-- The response to one page request: HTTP status and the extracted item
list (`t_content["items"]`, or the whole body for division urls — the
extraction is JSON plumbing abstracted into the provided list). -/
structure PageResponse (α : Type) where
  status : Nat
  items : List α
deriving DecidableEq, Repr

/-- Lines 70-78 of `utils.load_data`: the effective total —
`content["totalResults"]` if present, else `content["totalItems"]`, else 0;
replaced by `total_search_results` whenever that override is not -1. -/
def load_total (init : InitResponse) (total_search_results : Int) : Int :=
  let t : Int :=
    match init.totalResults with
    | some n => n
    | none =>
      match init.totalItems with
      | some n => n
      | none => 0
  if total_search_results ≠ -1 then total_search_results else t

/-- `math.ceil(total_results / 20)` as the number of page requests built by
`range(pages)`: non-positive totals yield no pages. -/
def pages_of (total : Int) : Nat :=
  if total ≤ 0 then 0 else (total.toNat + 19) / 20

/-- The page tasks launched by `load_data` and joined by `asyncio.gather`:
one request per page index, any non-200 fails the whole operation, each
success extends `final_list` with its items (linearised in launch order). -/
def fetch_pages (pageFn : Nat → PageResponse α) : List Nat → Except String (List α)
  | [] => .ok []
  | p :: rest =>
    let r := pageFn p
    if r.status ≠ 200 then
      .error "Couldn't fetch data"
    else
      match fetch_pages pageFn rest with
      | .error e => .error e
      | .ok tail => .ok (r.items ++ tail)

/-- `utils.load_data`: non-200 on the initial request raises; the effective
total and page count are computed (`load_total`, `pages_of`); the page
requests (`pageFn p` is the request for page `p`, page 0 re-fetching the
base url) are gathered; the concatenation is sliced to
`final_list[0:total_results]` unless the total is 0 or -1, in which case it
is returned unfiltered.  The skip/take query-string construction is string
plumbing folded into `pageFn`. -/
def load_data (init : InitResponse) (pageFn : Nat → PageResponse α)
    (total_search_results : Int) : Except String (List α) :=
  if init.status ≠ 200 then
    .error "Couldn't fetch data"
  else
    let total_results := load_total init total_search_results
    let pages := pages_of total_results
    match fetch_pages pageFn (List.range pages) with
    | .error e => .error e
    | .ok final_list =>
      .ok (if total_results ≠ 0 ∧ total_results ≠ -1 then
             final_list.take total_results.toNat
           else
             final_list)

/-- The slice of the underlying result set served by page `p` when the
upstream holds the list `L` and pages carry 20 items. -/
def page_slice (L : List α) (p : Nat) : List α :=
  (L.drop (20 * p)).take 20

/-! ### `divisions_tracker.DivisionsTracker` -/

/-- A bill as returned by `UKParliament.search_bills`, reduced to the two
accessors `division_task` uses: `get_bill_id()` and `get_title()`. -/
structure SBill where
  bill_id : Nat
  title : String
deriving DecidableEq, Repr

/-- A division as consumed by `DivisionsTracker.division_task`: its id, its
`get_division_title()`, and whether the object is a `LordsDivision` (the
`isinstance` test selecting the listener set). -/
structure TrackedDivision where
  division_id : Nat
  title : String
  is_lords : Bool
deriving DecidableEq, Repr

/-- Line 170: `title.split("Bill")[0] + "Bill"` — the division title up to
and including the first occurrence of "Bill". -/
def bill_section (title : String) : String :=
  (py_split title "Bill").headD "" ++ "Bill"

/-- Lines 177-180: `if len(bills) > 0: for b in bills: if
b.get_title().startswith(bill_section): bill = b` — the loop has no
`break`, so every matching result overwrites `bill`. -/
def associate_bill (title : String) (bills : List SBill) : Option SBill :=
  if bills.length > 0 then
    bills.foldl
      (fun acc b => if py_startswith b.title (bill_section title) then some b else acc)
      none
  else
    none

/-- `divisions_tracker.DivisionStorage`: the pluggable division storage
interface over an abstract state `σ`; any call may raise. -/
structure DivisionStorageOps (σ : Type) where
  add_division : σ → TrackedDivision → Except String σ
  add_bill_division : σ → Nat → TrackedDivision → Except String σ
  division_stored : σ → TrackedDivision → Except String Bool
  bill_division_stored : σ → Nat → TrackedDivision → Except String Bool

/-- A canonical `DivisionStorage` implementation: record keys
`(associated bill id?, division id)`, never raise. -/
def canonDivisions : DivisionStorageOps (List (Option Nat × Nat)) where
  add_division := fun st d => .ok ((none, d.division_id) :: st)
  add_bill_division := fun st b d => .ok ((some b, d.division_id) :: st)
  division_stored := fun st d => .ok ((none, d.division_id) ∈ st)
  bill_division_stored := fun st b d => .ok ((some b, d.division_id) ∈ st)

/-- The observable calls of a `division_task` run. -/
inductive DivEvent where
  | persist_division (division_id : Nat)
  | persist_bill_division (bill_id : Nat) (division_id : Nat)
  | dispatch (listener_idx : Nat) (division_id : Nat)
deriving DecidableEq, Repr

def DivEvent.isPersist : DivEvent → Bool
  | .persist_division _ => true
  | .persist_bill_division _ _ => true
  | .dispatch _ _ => false

def DivEvent.isDispatch : DivEvent → Bool
  | .persist_division _ => false
  | .persist_bill_division _ _ => false
  | .dispatch _ _ => true

/-- A listener registered with the divisions tracker: invoked with the
division and the associated bill (or `None`); it may raise. -/
def DivListener : Type :=
  TrackedDivision → Option SBill → Except String Unit

/-- The unconditional listener gather at the end of `division_task`: every
listener of the selected house runs; the first raising listener's error is
what the gather propagates. -/
def run_div_listeners (division : TrackedDivision) (bill : Option SBill) :
    List DivListener → Nat → List DivEvent × Option String
  | [], _ => ([], none)
  | l :: rest, i =>
    let r := l division bill
    let (evs, err) := run_div_listeners division bill rest (i + 1)
    (.dispatch i division.division_id :: evs,
     match r with
     | .error e => some e
     | .ok _ => err)

/-- The result of one `division_task` run. -/
structure DivTaskResult (σ : Type) where
  storage : σ
  events : List DivEvent
  err : Option String

/-- `DivisionsTracker.division_task`: fetch the division (via
`get_lords_division` / `get_commons_division`, abstracted into
`getDivision`); return if `division_stored`; when the title contains
"Bill", search bills by the candidate section (`searchBills` abstracts
`parliament.search_bills` over the built url) and select the association
with `associate_bill`; if a bill was found and `bill_division_stored`,
return; persist with `add_bill_division` or `add_division`; then gather the
house's listeners. -/
def division_task (ops : DivisionStorageOps σ)
    (getDivision : Nat → Bool → Except String TrackedDivision)
    (searchBills : String → Except String (List SBill))
    (lords_listeners commons_listeners : List DivListener)
    (st : σ) (division_id : Nat) (lords_division : Bool) : DivTaskResult σ :=
  match getDivision division_id lords_division with
  | .error e => ⟨st, [], some e⟩
  | .ok division =>
    match ops.division_stored st division with
    | .error e => ⟨st, [], some e⟩
    | .ok true => ⟨st, [], none⟩
    | .ok false =>
      let title := division.title
      match (if py_contains title "Bill" then
               match searchBills (bill_section title) with
               | .error e => .error e
               | .ok bills => .ok (associate_bill title bills)
             else
               .ok none : Except String (Option SBill)) with
      | .error e => ⟨st, [], some e⟩
      | .ok bill =>
        match (match bill with
               | some b => ops.bill_division_stored st b.bill_id division
               | none => .ok false) with
        | .error e => ⟨st, [], some e⟩
        | .ok true => ⟨st, [], none⟩
        | .ok false =>
          match (match bill with
                 | some b => ops.add_bill_division st b.bill_id division
                 | none => ops.add_division st division) with
          | .error e => ⟨st, [], some e⟩
          | .ok st' =>
            let persist :=
              match bill with
              | some b => DivEvent.persist_bill_division b.bill_id division.division_id
              | none => DivEvent.persist_division division.division_id
            let listeners :=
              if division.is_lords then lords_listeners else commons_listeners
            let (devs, err) := run_div_listeners division bill listeners 0
            ⟨st', persist :: devs, err⟩

/-! ### Member lookup and division resolution (`ukparliament.py`, `bills.py`) -/

/-- `structures.members.PartyMember`, reduced to identity. -/
structure PartyMember where
  member_id : Nat
  name : String
deriving DecidableEq, Repr

/-- `TTLCache.get`: an association lookup.  Expiry only removes entries and
no claim settled here depends on the TTL, so time is not modelled. -/
def cache_get (cache : List (Nat × α)) (k : Nat) : Option α :=
  (cache.find? (fun p => p.1 == k)).map Prod.snd

/-- `UKParliament.lazy_load_member`: consult `old_member_cache` under its
lock; on a hit return the cached member; on a miss fetch the member-detail
endpoint (non-200 raises) and return the parsed `PartyMember`.  The source
returns the fetched member *without inserting it into the cache* — no write
to `old_member_cache` occurs on any path, so the cache comes back
unchanged. -/
def lazy_load_member (cache : List (Nat × PartyMember))
    (fetchMember : Nat → Except String PartyMember) (member_id : Nat) :
    List (Nat × PartyMember) × Except String PartyMember :=
  match cache_get cache member_id with
  | some m => (cache, .ok m)
  | none =>
    match fetchMember member_id with
    | .error e => (cache, .error e)
    | .ok member => (cache, .ok member)

/-- `bills.division_task`: resolve one member id for a division's member
list — the indexed members first (`get_member_by_id`), then
`lazy_load_member`; a failed lazy load raises out of the task.  (The second
`if member is None` re-check in the source is unreachable: `lazy_load_member`
either returns a member or raises.) -/
def member_division_task (indexed : Nat → Option PartyMember)
    (cache : List (Nat × PartyMember)) (fetchMember : Nat → Except String PartyMember)
    (m_id : Nat) : Except String PartyMember :=
  match indexed m_id with
  | some m => .ok m
  | none => (lazy_load_member cache fetchMember m_id).2

/-- One `asyncio.gather` of `bills.division_task` coroutines over a member
id list: the join completes only when every lookup does, and any raising
lookup fails the join (the sibling appends land in a local list that is
then discarded). -/
def gather_members (task : Nat → Except String PartyMember) :
    List Nat → Except String (List PartyMember)
  | [] => .ok []
  | m_id :: rest =>
    match task m_id with
    | .error e => .error e
    | .ok m =>
      match gather_members task rest with
      | .error e => .error e
      | .ok ms => .ok (m :: ms)

/-- The raw member-id lists of a fetched `CommonsDivision`
(`get_aye_teller_ids`, `get_no_teller_ids`, `get_aye_member_ids`,
`get_no_member_ids`). -/
structure CommonsDivisionData where
  division_id : Nat
  aye_teller_ids : List Nat
  no_teller_ids : List Nat
  aye_member_ids : List Nat
  no_member_ids : List Nat
deriving DecidableEq, Repr

/-- The raw member-id lists of a fetched `LordsDivision`. -/
structure LordsDivisionData where
  division_id : Nat
  aye_teller_ids : List Nat
  no_teller_ids : List Nat
  no_vote_member_ids : List Nat
  aye_vote_member_ids : List Nat
deriving DecidableEq, Repr

/-- A commons division after `_populate_commons_division`.  The source
assigns the gathered aye tellers via `set_aye_members` (overwritten by the
aye voters later) and never assigns the gathered no tellers, so only the
final aye/no member lists survive on the object. -/
structure PopulatedCommonsDivision where
  division_id : Nat
  aye_members : List PartyMember
  no_members : List PartyMember
deriving DecidableEq, Repr

/-- A lords division after `_populate_lords_division`. -/
structure PopulatedLordsDivision where
  division_id : Nat
  aye_tellers : List PartyMember
  no_tellers : List PartyMember
  no_members : List PartyMember
  aye_members : List PartyMember
deriving DecidableEq, Repr

/-- `UKParliament._populate_commons_division`: four sequential member
fan-out gathers; any failing lookup fails the whole population. -/
def populate_commons_division (indexed : Nat → Option PartyMember)
    (mcache : List (Nat × PartyMember)) (fetchMember : Nat → Except String PartyMember)
    (d : CommonsDivisionData) : Except String PopulatedCommonsDivision :=
  let task := member_division_task indexed mcache fetchMember
  match gather_members task d.aye_teller_ids with
  | .error e => .error e
  | .ok _aye_tellers =>
    -- assigned with `set_aye_members` in the source, overwritten below
    match gather_members task d.no_teller_ids with
    | .error e => .error e
    | .ok _no_tellers =>
      -- gathered but never assigned to the object in the source
      match gather_members task d.aye_member_ids with
      | .error e => .error e
      | .ok aye_members =>
        match gather_members task d.no_member_ids with
        | .error e => .error e
        | .ok no_members =>
          .ok ⟨d.division_id, aye_members, no_members⟩

/-- `UKParliament._populate_lords_division`: four sequential member fan-out
gathers (aye tellers, no tellers, no voters, aye voters); any failing
lookup fails the whole population. -/
def populate_lords_division (indexed : Nat → Option PartyMember)
    (mcache : List (Nat × PartyMember)) (fetchMember : Nat → Except String PartyMember)
    (d : LordsDivisionData) : Except String PopulatedLordsDivision :=
  let task := member_division_task indexed mcache fetchMember
  match gather_members task d.aye_teller_ids with
  | .error e => .error e
  | .ok aye_tellers =>
    match gather_members task d.no_teller_ids with
    | .error e => .error e
    | .ok no_tellers =>
      match gather_members task d.no_vote_member_ids with
      | .error e => .error e
      | .ok no_members =>
        match gather_members task d.aye_vote_member_ids with
        | .error e => .error e
        | .ok aye_members =>
          .ok ⟨d.division_id, aye_tellers, no_tellers, no_members, aye_members⟩

/-- `UKParliament.get_commons_division`: consult `division_cache`; on a
miss fetch the division (non-200 raises), populate its member lists, and
only after the population succeeds insert the division into the cache and
return it.  An exception anywhere leaves the cache untouched and returns no
division. -/
def get_commons_division (dcache : List (Nat × PopulatedCommonsDivision))
    (fetchDivision : Nat → Except String CommonsDivisionData)
    (indexed : Nat → Option PartyMember) (mcache : List (Nat × PartyMember))
    (fetchMember : Nat → Except String PartyMember) (division_id : Nat) :
    List (Nat × PopulatedCommonsDivision) × Except String PopulatedCommonsDivision :=
  match cache_get dcache division_id with
  | some d => (dcache, .ok d)
  | none =>
    match fetchDivision division_id with
    | .error e => (dcache, .error e)
    | .ok raw =>
      match populate_commons_division indexed mcache fetchMember raw with
      | .error e => (dcache, .error e)
      | .ok division => ((division_id, division) :: dcache, .ok division)

/-- `UKParliament.get_lords_division`:  same shape as
`get_commons_division` over the lords endpoints. -/
def get_lords_division (dcache : List (Nat × PopulatedLordsDivision))
    (fetchDivision : Nat → Except String LordsDivisionData)
    (indexed : Nat → Option PartyMember) (mcache : List (Nat × PartyMember))
    (fetchMember : Nat → Except String PartyMember) (division_id : Nat) :
    List (Nat × PopulatedLordsDivision) × Except String PopulatedLordsDivision :=
  match cache_get dcache division_id with
  | some d => (dcache, .ok d)
  | none =>
    match fetchDivision division_id with
    | .error e => (dcache, .error e)
    | .ok raw =>
      match populate_lords_division indexed mcache fetchMember raw with
      | .error e => (dcache, .error e)
      | .ok division => ((division_id, division) :: dcache, .ok division)

/-! ## Theorems -/

/-! ### C7: `load_data` with an undeterminable total -/

/-- An initial response carrying neither `totalResults` nor `totalItems`. -/
def init_no_total : InitResponse :=
  ⟨200, none, none⟩

/-- A page endpoint whose every page (in particular the first) returns the
single item 42. -/
def one_item_pages : Nat → PageResponse Nat :=
  fun _ => ⟨200, [42]⟩

/-- C7 counterexample: with no total-count field and no override,
`load_data` returns the empty list, not the first page's raw contents —
the first page here holds an item, but no page request is ever issued
(`pages = ceil(0/20) = 0`). -/
theorem c7_counterexample :
    load_data init_no_total one_item_pages (-1) = .ok ([] : List Nat) ∧
    (one_item_pages 0).items ≠ ([] : List Nat) :=
  ⟨rfl, by decide⟩

/-- C7 (amended): when the fetcher cannot determine a total count (neither
`totalResults` nor `totalItems` present) and no override is supplied, it
treats the total as 0, issues no page requests, and returns the empty
list. -/
theorem load_data_no_total_returns_empty (init : InitResponse)
    (pageFn : Nat → PageResponse α) (h200 : init.status = 200)
    (hr : init.totalResults = none) (hi : init.totalItems = none) :
    load_data init pageFn (-1) = .ok [] := by
  simp [load_data, load_total, pages_of, h200, hr, hi, fetch_pages]

/-- C7 witness: the amended statement at a concrete input. -/
theorem load_data_no_total_returns_empty_witness :
    load_data init_no_total one_item_pages (-1) = .ok ([] : List Nat) :=
  load_data_no_total_returns_empty init_no_total one_item_pages rfl rfl rfl

/-! ### C9: `lazy_load_member` never populates the cache -/

/-- A member-detail endpoint that succeeds for every id. -/
def fetch_member_ok : Nat → Except String PartyMember :=
  fun i => .ok ⟨i, "member"⟩

/-- C9 counterexample: a cache-miss lookup fetches and returns the member,
but the cache comes back empty — the fetched member is not stored under its
id, so a second lookup of the same id misses the cache again. -/
theorem c9_counterexample :
    (lazy_load_member [] fetch_member_ok 5).2 = .ok ⟨5, "member"⟩ ∧
    (lazy_load_member [] fetch_member_ok 5).1 = [] ∧
    cache_get (lazy_load_member [] fetch_member_ok 5).1 5 = (none : Option PartyMember) :=
  ⟨rfl, rfl, rfl⟩

/-- C9 (amended): `lazy_load_member` consults the cache first and on a hit
returns the cached member, but on a miss it fetches and returns the member
*without* populating the cache — the cache is returned unchanged on every
path, so a repeated lookup of the same id misses again and re-fetches. -/
theorem lazy_load_member_cache_unchanged
    (cache : List (Nat × PartyMember)) (fetchMember : Nat → Except String PartyMember)
    (member_id : Nat) :
    (lazy_load_member cache fetchMember member_id).1 = cache ∧
    (∀ m, cache_get cache member_id = some m →
      (lazy_load_member cache fetchMember member_id).2 = .ok m) := by
  constructor
  · unfold lazy_load_member
    cases cache_get cache member_id with
    | none =>
      cases fetchMember member_id <;> simp
    | some m => simp
  · intro m hm
    unfold lazy_load_member
    rw [hm]

/-- C9 witness: the amended statement at a concrete cached input — the
cache is unchanged and the cached member is returned. -/
theorem lazy_load_member_cache_unchanged_witness :
    (lazy_load_member [(5, (⟨5, "member"⟩ : PartyMember))] fetch_member_ok 5).1
        = [(5, ⟨5, "member"⟩)] ∧
    (lazy_load_member [(5, (⟨5, "member"⟩ : PartyMember))] fetch_member_ok 5).2
        = .ok ⟨5, "member"⟩ :=
  ⟨(lazy_load_member_cache_unchanged [(5, ⟨5, "member"⟩)] fetch_member_ok 5).1,
   (lazy_load_member_cache_unchanged [(5, ⟨5, "member"⟩)] fetch_member_ok 5).2
      ⟨5, "member"⟩ rfl⟩

/-! ### C4: division-to-bill association is last-match, not first-match -/

/-- The two candidate bills of the claim, in search-result order. -/
def example_bill_1 : SBill :=
  ⟨1, "Example Act 2020 Bill"⟩

def example_bill_2 : SBill :=
  ⟨2, "Example Act 2020 Bill (No. 2)"⟩

/-- C4 counterexample: for the division title of the claim and the two
candidate results in that order, the association loop picks the SECOND
result (both titles start with the candidate substring and the loop has no
break, so the last match overwrites the first), not the first as claimed. -/
theorem c4_counterexample :
    associate_bill "Example Act 2020 Bill — Third Reading"
        [example_bill_1, example_bill_2] = some example_bill_2 ∧
    example_bill_2 ≠ example_bill_1 :=
  ⟨by decide, by decide⟩

/-- The selection fold of `associate_bill` keeps the last match:
folding over `bills` returns the first match of the reversed list. -/
theorem assoc_foldl_last (p : SBill → Bool) (bills : List SBill) (acc : Option SBill) :
    bills.foldl (fun a b => if p b then some b else a) acc =
      ((bills.reverse.find? p).map some).getD acc := by
  induction bills generalizing acc with
  | nil => simp
  | cons b bs ih =>
    simp only [List.foldl_cons, List.reverse_cons, List.find?_append, ih]
    cases h : bs.reverse.find? p with
    | none =>
      simp [List.find?, h]
      cases hp : p b <;> simp [hp, Option.or]
    | some c => simp [h, Option.or]

/-- C4 (amended): for every division title containing "Bill",
`division_task` derives the candidate as the title up to and including the
first "Bill" (`bill_section`) and selects the LAST search result whose
title starts with the candidate (the loop assigns every match without
breaking), i.e. the first match of the reversed result list. -/
theorem associate_bill_picks_last_match (title : String) (bills : List SBill) :
    associate_bill title bills =
      bills.reverse.find? (fun b => py_startswith b.title (bill_section title)) := by
  unfold associate_bill
  cases bills with
  | nil => simp
  | cons b bs =>
    rw [if_pos (by simp)]
    rw [assoc_foldl_last]
    cases h : (b :: bs).reverse.find? (fun b => py_startswith b.title (bill_section title)) <;>
      simp [h]

/-! ### C6: pagination completeness -/

/-- Joining two runs of successful page fetches concatenates their items. -/
theorem fetch_pages_append (pageFn : Nat → PageResponse α) (xs ys : List Nat)
    (a b : List α) (hx : fetch_pages pageFn xs = .ok a)
    (hy : fetch_pages pageFn ys = .ok b) :
    fetch_pages pageFn (xs ++ ys) = .ok (a ++ b) := by
  induction xs generalizing a with
  | nil =>
    simp [fetch_pages] at hx
    subst hx
    simpa using hy
  | cons p rest ih =>
    simp only [fetch_pages] at hx ⊢
    by_cases hs : (pageFn p).status ≠ 200
    · simp [hs] at hx
    · simp only [hs, if_false] at hx ⊢
      cases hrest : fetch_pages pageFn rest with
      | error e => rw [hrest] at hx; cases hx
      | ok tail =>
        rw [hrest] at hx
        injection hx with hx
        have hr2 := ih tail hrest
        simp only [List.append_eq, hr2]
        subst hx
        simp

/-- When every page `p` serves the 20-item slice `page_slice L p` of an
underlying list `L`, fetching pages `0..n-1` yields the first `20·n`
entries of `L`. -/
theorem fetch_pages_slices (pageFn : Nat → PageResponse α) (L : List α)
    (hstat : ∀ p, (pageFn p).status = 200)
    (hitems : ∀ p, (pageFn p).items = page_slice L p) :
    ∀ n, fetch_pages pageFn (List.range n) = .ok (L.take (20 * n)) := by
  intro n
  induction n with
  | zero => simp [fetch_pages]
  | succ n ih =>
    rw [List.range_succ]
    have hone : fetch_pages pageFn [n] = .ok (page_slice L n) := by
      simp [fetch_pages, hstat n, hitems n]
    rw [fetch_pages_append pageFn _ _ _ _ ih hone]
    have : 20 * (n + 1) = 20 * n + 20 := by ring
    rw [this, List.take_add]
    rfl

/-- C6: for every base configuration whose effective total (response-reported
or caller-overridden, see `load_total`) is `T > 0`, if each of the
`ceil(T/20)` page requests succeeds serving its 20-item slice of the
underlying `T`-element result set `L`, then `load_data` returns exactly the
`T` items of `L` — the first `T` entries of the concatenated pages. -/
theorem load_data_complete (init : InitResponse) (override T : Int) (L : List α)
    (pageFn : Nat → PageResponse α) (h200 : init.status = 200)
    (hT : load_total init override = T) (hpos : 0 < T)
    (hstat : ∀ p, (pageFn p).status = 200)
    (hitems : ∀ p, (pageFn p).items = page_slice L p)
    (hlen : L.length = T.toNat) :
    load_data init pageFn override = .ok L := by
  have hTn : ¬ T ≤ 0 := by omega
  have hpages : pages_of T = (T.toNat + 19) / 20 := by
    simp [pages_of, hTn]
  have hcover : T.toNat ≤ 20 * ((T.toNat + 19) / 20) := by omega
  have hfetch := fetch_pages_slices pageFn L hstat hitems ((T.toNat + 19) / 20)
  have htake : L.take (20 * ((T.toNat + 19) / 20)) = L :=
    List.take_of_length_le (by omega)
  have hT0 : T ≠ 0 := by omega
  have hT1 : T ≠ -1 := by omega
  simp only [load_data, h200, hT, if_neg (by simp : ¬ (200 : Nat) ≠ 200), hpages,
    hfetch, htake]
  simp [hT0, hT1, List.take_of_length_le (le_of_eq hlen)]

/-- The concrete underlying result set for the C6 witness: 21 items
(one more than a full page). -/
def c6_items : List Nat :=
  List.range 21

/-- The page endpoint serving `c6_items` in 20-item slices. -/
def c6_pages : Nat → PageResponse Nat :=
  fun p => ⟨200, page_slice c6_items p⟩

/-- C6 witness: a response reporting total 21 with two successful pages
(20 + 1 items) loads exactly the 21 underlying items. -/
theorem load_data_complete_witness :
    load_data ⟨200, some 21, none⟩ c6_pages (-1) = .ok c6_items :=
  load_data_complete ⟨200, some 21, none⟩ (-1) 21 c6_items c6_pages rfl rfl
    (by decide) (fun _ => rfl) (fun _ => rfl) (by decide)

/-! ### C8: concurrent fan-out is all-or-nothing -/

/-- A gather over a member list containing a failing lookup fails. -/
theorem gather_members_error (task : Nat → Except String PartyMember)
    (ids : List Nat) (m_id : Nat) (e : String) (hmem : m_id ∈ ids)
    (hfail : task m_id = .error e) :
    ∃ e', gather_members task ids = .error e' := by
  induction ids with
  | nil => cases hmem
  | cons i rest ih =>
    rcases List.mem_cons.mp hmem with h | h
    · subst h
      exact ⟨e, by simp [gather_members, hfail]⟩
    · cases hi : task i with
      | error e'' => exact ⟨e'', by simp [gather_members, hi]⟩
      | ok m =>
        obtain ⟨e', he'⟩ := ih h
        exact ⟨e', by simp [gather_members, hi, he']⟩

/-- A failing member lookup in any of the four member-id lists fails the
whole commons population. -/
theorem populate_commons_division_error (indexed : Nat → Option PartyMember)
    (mcache : List (Nat × PartyMember)) (fetchMember : Nat → Except String PartyMember)
    (d : CommonsDivisionData) (m_id : Nat) (e : String)
    (hmem : m_id ∈ d.aye_teller_ids ++ d.no_teller_ids ++ d.aye_member_ids ++ d.no_member_ids)
    (hfail : member_division_task indexed mcache fetchMember m_id = .error e) :
    ∃ e', populate_commons_division indexed mcache fetchMember d = .error e' := by
  unfold populate_commons_division
  simp only [List.append_assoc, List.mem_append] at hmem
  cases h1 : gather_members (member_division_task indexed mcache fetchMember) d.aye_teller_ids with
  | error e1 => exact ⟨e1, by simp [h1]⟩
  | ok l1 =>
    cases h2 : gather_members (member_division_task indexed mcache fetchMember) d.no_teller_ids with
    | error e2 => exact ⟨e2, by simp [h1, h2]⟩
    | ok l2 =>
      cases h3 : gather_members (member_division_task indexed mcache fetchMember) d.aye_member_ids with
      | error e3 => exact ⟨e3, by simp [h1, h2, h3]⟩
      | ok l3 =>
        cases h4 : gather_members (member_division_task indexed mcache fetchMember) d.no_member_ids with
        | error e4 => exact ⟨e4, by simp [h1, h2, h3, h4]⟩
        | ok l4 =>
          exfalso
          rcases hmem with hm | hm | hm | hm
          · obtain ⟨e', he'⟩ := gather_members_error _ _ _ _ hm hfail
            rw [h1] at he'; cases he'
          · obtain ⟨e', he'⟩ := gather_members_error _ _ _ _ hm hfail
            rw [h2] at he'; cases he'
          · obtain ⟨e', he'⟩ := gather_members_error _ _ _ _ hm hfail
            rw [h3] at he'; cases he'
          · obtain ⟨e', he'⟩ := gather_members_error _ _ _ _ hm hfail
            rw [h4] at he'; cases he'

/-- A failing member lookup in any of the four member-id lists fails the
whole lords population. -/
theorem populate_lords_division_error (indexed : Nat → Option PartyMember)
    (mcache : List (Nat × PartyMember)) (fetchMember : Nat → Except String PartyMember)
    (d : LordsDivisionData) (m_id : Nat) (e : String)
    (hmem : m_id ∈ d.aye_teller_ids ++ d.no_teller_ids ++ d.no_vote_member_ids ++ d.aye_vote_member_ids)
    (hfail : member_division_task indexed mcache fetchMember m_id = .error e) :
    ∃ e', populate_lords_division indexed mcache fetchMember d = .error e' := by
  unfold populate_lords_division
  simp only [List.append_assoc, List.mem_append] at hmem
  cases h1 : gather_members (member_division_task indexed mcache fetchMember) d.aye_teller_ids with
  | error e1 => exact ⟨e1, by simp [h1]⟩
  | ok l1 =>
    cases h2 : gather_members (member_division_task indexed mcache fetchMember) d.no_teller_ids with
    | error e2 => exact ⟨e2, by simp [h1, h2]⟩
    | ok l2 =>
      cases h3 : gather_members (member_division_task indexed mcache fetchMember) d.no_vote_member_ids with
      | error e3 => exact ⟨e3, by simp [h1, h2, h3]⟩
      | ok l3 =>
        cases h4 : gather_members (member_division_task indexed mcache fetchMember) d.aye_vote_member_ids with
        | error e4 => exact ⟨e4, by simp [h1, h2, h3, h4]⟩
        | ok l4 =>
          exfalso
          rcases hmem with hm | hm | hm | hm
          · obtain ⟨e', he'⟩ := gather_members_error _ _ _ _ hm hfail
            rw [h1] at he'; cases he'
          · obtain ⟨e', he'⟩ := gather_members_error _ _ _ _ hm hfail
            rw [h2] at he'; cases he'
          · obtain ⟨e', he'⟩ := gather_members_error _ _ _ _ hm hfail
            rw [h3] at he'; cases he'
          · obtain ⟨e', he'⟩ := gather_members_error _ _ _ _ hm hfail
            rw [h4] at he'; cases he'

/-- A member id that is neither indexed nor cached and whose detail fetch
fails makes the per-member task fail. -/
theorem member_division_task_error (indexed : Nat → Option PartyMember)
    (mcache : List (Nat × PartyMember)) (fetchMember : Nat → Except String PartyMember)
    (m_id : Nat) (e : String) (hidx : indexed m_id = none)
    (hcache : cache_get mcache m_id = none) (hfetch : fetchMember m_id = .error e) :
    member_division_task indexed mcache fetchMember m_id = .error e := by
  simp [member_division_task, lazy_load_member, hidx, hcache, hfetch]

/-- C8: on a division-cache miss, if any one member id in any of the
fanned-out member lists cannot be resolved (not indexed, not cached, and
its detail fetch raises), the whole division resolution — commons and lords
alike — raises, and the division cache comes back unchanged: no partially
populated division is cached or returned. -/
theorem division_resolution_all_or_nothing :
    (∀ (dcache : List (Nat × PopulatedCommonsDivision))
       (fetchDivision : Nat → Except String CommonsDivisionData)
       (indexed : Nat → Option PartyMember) (mcache : List (Nat × PartyMember))
       (fetchMember : Nat → Except String PartyMember) (division_id : Nat)
       (raw : CommonsDivisionData) (m_id : Nat) (e : String),
       cache_get dcache division_id = none →
       fetchDivision division_id = .ok raw →
       m_id ∈ raw.aye_teller_ids ++ raw.no_teller_ids ++ raw.aye_member_ids ++ raw.no_member_ids →
       indexed m_id = none → cache_get mcache m_id = none →
       fetchMember m_id = .error e →
       (get_commons_division dcache fetchDivision indexed mcache fetchMember division_id).1
           = dcache ∧
       ∃ e', (get_commons_division dcache fetchDivision indexed mcache fetchMember
           division_id).2 = .error e') ∧
    (∀ (dcache : List (Nat × PopulatedLordsDivision))
       (fetchDivision : Nat → Except String LordsDivisionData)
       (indexed : Nat → Option PartyMember) (mcache : List (Nat × PartyMember))
       (fetchMember : Nat → Except String PartyMember) (division_id : Nat)
       (raw : LordsDivisionData) (m_id : Nat) (e : String),
       cache_get dcache division_id = none →
       fetchDivision division_id = .ok raw →
       m_id ∈ raw.aye_teller_ids ++ raw.no_teller_ids ++ raw.no_vote_member_ids ++ raw.aye_vote_member_ids →
       indexed m_id = none → cache_get mcache m_id = none →
       fetchMember m_id = .error e →
       (get_lords_division dcache fetchDivision indexed mcache fetchMember division_id).1
           = dcache ∧
       ∃ e', (get_lords_division dcache fetchDivision indexed mcache fetchMember
           division_id).2 = .error e') := by
  constructor
  · intro dcache fetchDivision indexed mcache fetchMember division_id raw m_id e
      hmiss hfetchd hmem hidx hcache hfetch
    obtain ⟨e', he'⟩ := populate_commons_division_error indexed mcache fetchMember raw m_id e
      hmem (member_division_task_error indexed mcache fetchMember m_id e hidx hcache hfetch)
    constructor
    · simp [get_commons_division, hmiss, hfetchd, he']
    · exact ⟨e', by simp [get_commons_division, hmiss, hfetchd, he']⟩
  · intro dcache fetchDivision indexed mcache fetchMember division_id raw m_id e
      hmiss hfetchd hmem hidx hcache hfetch
    obtain ⟨e', he'⟩ := populate_lords_division_error indexed mcache fetchMember raw m_id e
      hmem (member_division_task_error indexed mcache fetchMember m_id e hidx hcache hfetch)
    constructor
    · simp [get_lords_division, hmiss, hfetchd, he']
    · exact ⟨e', by simp [get_lords_division, hmiss, hfetchd, he']⟩

/-- C8 witness: both halves at a concrete failing lookup — for a division
whose aye-teller list holds member 7, unindexed, uncached, and with a
failing member endpoint, commons and lords resolutions raise and cache
nothing. -/
theorem division_resolution_all_or_nothing_witness :
    ((get_commons_division [] (fun _ => .ok ⟨3, [7], [], [], []⟩) (fun _ => none) []
        (fun _ => .error "member endpoint down") 3).1 = [] ∧
     ∃ e', (get_commons_division [] (fun _ => .ok ⟨3, [7], [], [], []⟩) (fun _ => none) []
        (fun _ => .error "member endpoint down") 3).2 = .error e') ∧
    ((get_lords_division [] (fun _ => .ok ⟨4, [7], [], [], []⟩) (fun _ => none) []
        (fun _ => .error "member endpoint down") 4).1 = [] ∧
     ∃ e', (get_lords_division [] (fun _ => .ok ⟨4, [7], [], [], []⟩) (fun _ => none) []
        (fun _ => .error "member endpoint down") 4).2 = .error e') :=
  ⟨division_resolution_all_or_nothing.1 [] _ _ [] _ 3 ⟨3, [7], [], [], []⟩ 7
      "member endpoint down" rfl rfl (by decide) rfl rfl rfl,
   division_resolution_all_or_nothing.2 [] _ _ [] _ 4 ⟨4, [7], [], [], []⟩ 7
      "member endpoint down" rfl rfl (by decide) rfl rfl rfl⟩

/-! ### C2: watermark monotonicity -/

/-- Ordering on optional watermarks: an unset watermark precedes anything,
and a set watermark is only followed by a set one at least as new. -/
def wm_le : Option Int → Option Int → Prop
  | none, _ => True
  | some x, some y => x ≤ y
  | some _, none => False

theorem wm_le_refl (a : Option Int) : wm_le a a := by
  cases a <;> simp [wm_le]

theorem wm_le_trans {a b c : Option Int} (h1 : wm_le a b) (h2 : wm_le b c) :
    wm_le a c := by
  cases a <;> cases b <;> cases c <;> simp_all [wm_le]
  omega

/-- `process_poll_item` never moves a feed's `last_update` backwards. -/
theorem process_poll_item_mono (f : Feed) (it : Item) :
    wm_le f.last_update (f.process_poll_item it).1.last_update := by
  unfold Feed.process_poll_item
  cases h : f.last_update with
  | none => simp [wm_le]
  | some lu =>
    by_cases hlt : lu < (FeedUpdate.ofItem it).updated
    · simp [hlt, wm_le]
      omega
    · simp [hlt, h, wm_le]

/-- `fetch_newest_publications` never moves a feed's
`last_publication_update` backwards. -/
theorem fetch_newest_publications_mono (f : Feed) (resp : PubResponse) (lim : Nat) :
    wm_le f.last_publication_update
      (f.fetch_newest_publications resp lim).1.last_publication_update := by
  unfold Feed.fetch_newest_publications
  by_cases hs : resp.status ≠ 200
  · simp [hs, wm_le_refl]
  · simp only [hs, if_false]
    cases h : f.last_publication_update with
    | none => simp [wm_le]
    | some t =>
      by_cases hle : resp.lastBuild ≤ t
      · simp [h, hle, wm_le_refl, wm_le]
      · simp [h, hle, wm_le]
        omega

/-- The `poll` body never moves the tracker's global watermark backwards,
whatever list of items the entry loop iterates. -/
theorem poll_core_mono (ts : TrackerState) (resp : RssResponse) (iterated : List Item) :
    wm_le ts.last_update (poll_core ts resp iterated).1.last_update := by
  unfold poll_core
  by_cases hs : resp.status ≠ 200
  · simp [hs, wm_le_refl]
  · simp only [hs, if_false]
    cases h : ts.last_update with
    | none => simp [wm_le]
    | some lu =>
      by_cases hle : resp.channel.lastBuild ≤ lu
      · simp [h, hle, wm_le_refl, wm_le]
      · simp [h, hle, wm_le]
        omega

/-- C2: no tracker operation replaces a stored watermark with a strictly
older timestamp — `Feed.process_poll_item` on the per-feed `last_update`,
`Feed.fetch_newest_publications` on the per-feed publication watermark, a
single `BillsTracker.poll` on the global watermark, and any sequence of
polls folded over the tracker state are all monotonically non-decreasing. -/
theorem watermarks_monotone :
    (∀ (f : Feed) (it : Item),
       wm_le f.last_update (f.process_poll_item it).1.last_update) ∧
    (∀ (f : Feed) (resp : PubResponse) (lim : Nat),
       wm_le f.last_publication_update
         (f.fetch_newest_publications resp lim).1.last_publication_update) ∧
    (∀ (ts : TrackerState) (resp : RssResponse),
       wm_le ts.last_update (poll ts resp).1.last_update) ∧
    (∀ (ts : TrackerState) (resps : List RssResponse),
       wm_le ts.last_update
         (resps.foldl (fun t r => (poll t r).1) ts).last_update) := by
  refine ⟨process_poll_item_mono, fetch_newest_publications_mono,
    fun ts resp => poll_core_mono ts resp [], ?_⟩
  intro ts resps
  induction resps generalizing ts with
  | nil => exact wm_le_refl _
  | cons r rest ih =>
    exact wm_le_trans (poll_core_mono ts r []) (ih ((poll ts r).1))

/-! ### C3: the entry loop of `poll` processes no entries -/

/-- An aggregate-feed entry used by the C3 and C5 inputs. -/
def sample_item : Item :=
  ⟨"https://bills.example/bills/1", none, [], "A Bill", "d", 5⟩

/-- An aggregate-feed response strictly newer than a watermark of 10,
carrying one entry. -/
def sample_resp : RssResponse :=
  ⟨200, ⟨20, [sample_item]⟩⟩

/-- C3 divergence witness: on a 200 response whose build date 20 is newer
than the stored watermark 10 and whose channel holds an entry, `poll`
advances the global watermark to 20 yet creates no feed and schedules no
per-entry task — the `for` loop iterates the `reversed` items iterator
after the debug print has exhausted it, so every entry goes unprocessed. -/
theorem poll_processes_no_entries :
    poll ⟨[], some 10⟩ sample_resp = (⟨[], some 20⟩, .ok []) ∧
    sample_resp.channel.items ≠ [] :=
  ⟨rfl, by decide⟩

/-! ### C5: a failed poll cycle leaves the tracker state unchanged -/

/-- C5: every failure a `BillsTracker.poll` cycle can raise occurs before
the watermark assignment on line 529 — the non-200 aggregate fetch here
(feed parsing, folded into the pre-parsed response, also precedes it) —
and no per-entry task ever runs in the shipped loop (see
`poll_processes_no_entries`), so a cycle that raises leaves the whole
tracker state, the global watermark and every per-feed watermark,
unchanged: the next poll retries from that state.  The second half shows
such failing cycles exist: every non-200 response raises and preserves the
state. -/
theorem failed_poll_preserves_state :
    (∀ (ts : TrackerState) (resp : RssResponse) (e : String),
       (poll ts resp).2 = .error e → (poll ts resp).1 = ts) ∧
    (∀ (ts : TrackerState) (resp : RssResponse),
       resp.status ≠ 200 →
       (poll ts resp).1 = ts ∧ ∃ e, (poll ts resp).2 = .error e) := by
  constructor
  · intro ts resp e h
    unfold poll poll_core at h ⊢
    by_cases hs : resp.status ≠ 200
    · rw [if_pos hs]
    · rw [if_neg hs] at h ⊢
      cases hblock : (match ts.last_update with
          | some lu => decide (resp.channel.lastBuild ≤ lu)
          | none => false) with
      | true => simp [hblock] at h
      | false => simp [hblock] at h
  · intro ts resp hs
    unfold poll poll_core
    rw [if_pos hs]
    exact ⟨rfl, _, rfl⟩

/-- C5 witness: a non-200 aggregate response at a concrete tracker state —
both parts applied, state unchanged and an error raised. -/
theorem failed_poll_preserves_state_witness :
    (poll ⟨[], some 10⟩ ⟨500, ⟨20, [sample_item]⟩⟩).1 = ⟨[], some 10⟩ ∧
    ((poll ⟨[], some 10⟩ ⟨500, ⟨20, [sample_item]⟩⟩).1 = ⟨[], some 10⟩ ∧
      ∃ e, (poll ⟨[], some 10⟩ ⟨500, ⟨20, [sample_item]⟩⟩).2 = .error e) :=
  ⟨failed_poll_preserves_state.1 ⟨[], some 10⟩ ⟨500, ⟨20, [sample_item]⟩⟩
      "Couldn't fetch rss feed for all bills" rfl,
   failed_poll_preserves_state.2 ⟨[], some 10⟩ ⟨500, ⟨20, [sample_item]⟩⟩ (by decide)⟩

/-! ### C1 / C10: dispatch and persistence behaviour of `_poll_task` -/

theorem countP_replicate_eval (p : α → Bool) (x : α) (n : Nat) :
    (List.replicate n x).countP p = if p x then n else 0 := by
  induction n with
  | zero => simp
  | succ n ih =>
    rw [List.replicate_succ, List.countP_cons]
    cases h : p x <;> simp [h, ih]

/-- With the canonical bills storage, the listener loop of `_poll_task`
never raises; it performs one persist per matching listener, queues one
pending handler per matching listener, only ever adds to the storage, and
records the update's `(bill_id, guid)` whenever some listener matches. -/
theorem dispatch_loop_canon (bill_id : Nat) (u : FeedUpdate) :
    ∀ (L : List TrackerListener) (st : List (Nat × String)) (i : Nat),
    ∃ st' pend,
      dispatch_loop canonBills bill_id u st L i =
        (st',
         List.replicate (L.filter (fun l => l.meets_conditions u)).length
           (BillEvent.persist bill_id u.guid),
         pend, none) ∧
      pend.length = (L.filter (fun l => l.meets_conditions u)).length ∧
      (∀ x ∈ st, x ∈ st') ∧
      ((L.filter (fun l => l.meets_conditions u)).length ≠ 0 →
        (bill_id, u.guid) ∈ st') := by
  intro L
  induction L with
  | nil =>
    intro st i
    exact ⟨st, [], rfl, rfl, fun x hx => hx, fun h => absurd rfl h⟩
  | cons l rest ih =>
    intro st i
    by_cases hm : l.meets_conditions u = true
    · obtain ⟨st', pend, hloop, hlen, hsub, hmem⟩ := ih ((bill_id, u.guid) :: st) (i + 1)
      have hflen : ((l :: rest).filter (fun l => l.meets_conditions u)).length =
          (rest.filter (fun l => l.meets_conditions u)).length + 1 := by
        simp [List.filter_cons, hm]
      refine ⟨st', (i, l) :: pend, ?_, ?_, ?_, ?_⟩
      · have hstep : dispatch_loop canonBills bill_id u st (l :: rest) i =
            ((dispatch_loop canonBills bill_id u ((bill_id, u.guid) :: st) rest (i + 1)).1,
             BillEvent.persist bill_id u.guid ::
               (dispatch_loop canonBills bill_id u ((bill_id, u.guid) :: st) rest (i + 1)).2.1,
             (i, l) ::
               (dispatch_loop canonBills bill_id u ((bill_id, u.guid) :: st) rest (i + 1)).2.2.1,
             (dispatch_loop canonBills bill_id u ((bill_id, u.guid) :: st) rest (i + 1)).2.2.2) := by
          simp only [dispatch_loop, hm, Bool.true_eq_false, if_false]
          rfl
        rw [hstep, hloop, hflen, List.replicate_succ]
      · rw [hflen]
        simp [hlen]
      · intro x hx
        exact hsub x (List.mem_cons_of_mem _ hx)
      · intro _
        exact hsub _ (List.mem_cons_self _ _)
    · simp only [Bool.not_eq_true] at hm
      obtain ⟨st', pend, hloop, hlen, hsub, hmem⟩ := ih st (i + 1)
      have hstep : dispatch_loop canonBills bill_id u st (l :: rest) i =
          dispatch_loop canonBills bill_id u st rest (i + 1) := by
        simp only [dispatch_loop, hm, if_true]
      have hflen : ((l :: rest).filter (fun l => l.meets_conditions u)) =
          rest.filter (fun l => l.meets_conditions u) := by
        simp [List.filter_cons, hm]
      exact ⟨st', pend, by rw [hstep, hloop, hflen], by rw [hflen]; exact hlen, hsub,
        by rw [hflen]; exact hmem⟩

/-- The gather of pending handlers dispatches each exactly once, in order. -/
theorem run_handlers_events (feed : Feed) (u : FeedUpdate) (bid : Nat) :
    ∀ pend : List (Nat × TrackerListener),
      (run_handlers feed u bid pend).1 =
        pend.map (fun p => BillEvent.dispatch p.1 bid u.guid) := by
  intro pend
  induction pend with
  | nil => rfl
  | cons p rest ih =>
    cases hr : run_handlers feed u bid rest with
    | mk evs err => simp_all [run_handlers]

/-- Every event the listener loop emits is a persist, for any storage
implementation. -/
theorem dispatch_loop_persists (ops : BillsStorageOps σ) (bill_id : Nat)
    (u : FeedUpdate) :
    ∀ (L : List TrackerListener) (st : σ) (i : Nat),
      ∀ e ∈ (dispatch_loop ops bill_id u st L i).2.1, e.isPersist = true := by
  intro L
  induction L with
  | nil =>
    intro st i e he
    cases he
  | cons l rest ih =>
    intro st i e he
    by_cases hm : l.meets_conditions u = true
    · simp only [dispatch_loop, hm, Bool.true_eq_false, if_false] at he
      cases ha : ops.add_feed_update st bill_id u with
      | error e' =>
        rw [ha] at he
        have he' : e ∈ ([] : List BillEvent) := he
        cases he'
      | ok st' =>
        rw [ha] at he
        have he' : e ∈ BillEvent.persist bill_id u.guid ::
            (dispatch_loop ops bill_id u st' rest (i + 1)).2.1 := he
        rcases List.mem_cons.mp he' with h | h
        · subst h
          rfl
        · exact ih st' (i + 1) e h
    · simp only [Bool.not_eq_true] at hm
      simp only [dispatch_loop, hm, if_true] at he
      exact ih st (i + 1) e he

/-- `_poll_task` returns the feed as mutated by `process_poll_item`,
whatever the storage and listeners do. -/
theorem poll_task_feed (ops : BillsStorageOps σ) (L : List TrackerListener)
    (st : σ) (feed : Feed) (item : Item) :
    (poll_task ops L st feed item).feed = (feed.process_poll_item item).1 := by
  unfold poll_task
  cases h : feed.process_poll_item item with
  | mk f' o =>
    cases o with
    | none => rfl
    | some u =>
      simp only
      cases hs : ops.has_update_stored st feed.get_id u with
      | error e => rfl
      | ok b =>
        cases b with
        | true => rfl
        | false =>
          cases hd : dispatch_loop ops feed.get_id u st L 0 with
          | mk a rest =>
            rcases rest with ⟨persists, pend, err⟩
            cases err <;> simp

/-- Re-presenting an entry whose update date equals the feed's stored
watermark does nothing: the timestamp comparison discards it before any
storage or listener interaction. -/
theorem poll_task_same_item (ops : BillsStorageOps σ) (L : List TrackerListener)
    (st : σ) (feed : Feed) (item : Item)
    (h : feed.last_update = some (FeedUpdate.ofItem item).updated) :
    poll_task ops L st feed item = ⟨st, feed, [], none⟩ := by
  simp [poll_task, Feed.process_poll_item, h]

/-- With the canonical bills storage, presenting an entry whose
`(bill_id, guid)` record is already stored produces no events, whatever
the feed's watermark state. -/
theorem poll_task_stored_canon (L : List TrackerListener)
    (st : List (Nat × String)) (feed : Feed) (item : Item)
    (hmem : (feed.get_id, (FeedUpdate.ofItem item).guid) ∈ st) :
    (poll_task canonBills L st feed item).events = [] := by
  unfold poll_task Feed.process_poll_item
  cases h : feed.last_update with
  | none => simp [canonBills, hmem]
  | some lu =>
    by_cases hlt : lu < (FeedUpdate.ofItem item).updated
    · simp [hlt, canonBills, hmem]
    · simp [hlt]

/-- First presentation of a fresh entry already recorded in the canonical
storage: the dedup check discards it, leaving everything unchanged but the
feed watermark. -/
theorem poll_task_fresh_stored_canon (L : List TrackerListener)
    (st : List (Nat × String)) (feed : Feed) (item : Item)
    (hfresh : feed.last_update = none)
    (hmem : (feed.get_id, (FeedUpdate.ofItem item).guid) ∈ st) :
    poll_task canonBills L st feed item =
      ⟨st, { feed with last_update := some (FeedUpdate.ofItem item).updated },
       [], none⟩ := by
  have hdec : decide ((feed.get_id, (FeedUpdate.ofItem item).guid) ∈ st) = true :=
    decide_eq_true hmem
  unfold poll_task Feed.process_poll_item
  rw [hfresh]
  simp only [canonBills, hdec]

/-- First presentation of a fresh, unstored entry against the canonical
storage: the feed watermark is set to the entry's date, there is exactly
one persist and one dispatch per matching listener, and the update's
`(bill_id, guid)` record ends up stored whenever some listener matches. -/
theorem poll_task_fresh_canon (L : List TrackerListener)
    (st : List (Nat × String)) (feed : Feed) (item : Item)
    (hfresh : feed.last_update = none)
    (hunstored : (feed.get_id, (FeedUpdate.ofItem item).guid) ∉ st) :
    (poll_task canonBills L st feed item).feed =
      { feed with last_update := some (FeedUpdate.ofItem item).updated } ∧
    (poll_task canonBills L st feed item).events.countP (fun e => e.isPersist) =
      (L.filter (fun l => l.meets_conditions (FeedUpdate.ofItem item))).length ∧
    (poll_task canonBills L st feed item).events.countP (fun e => e.isDispatch) =
      (L.filter (fun l => l.meets_conditions (FeedUpdate.ofItem item))).length ∧
    ((L.filter (fun l => l.meets_conditions (FeedUpdate.ofItem item))).length ≠ 0 →
      (feed.get_id, (FeedUpdate.ofItem item).guid) ∈
        (poll_task canonBills L st feed item).storage) := by
  obtain ⟨st', pend, hloop, hlen, hsub, hmem⟩ :=
    dispatch_loop_canon feed.get_id (FeedUpdate.ofItem item) L st 0
  have hdec : decide ((feed.get_id, (FeedUpdate.ofItem item).guid) ∈ st) = false :=
    decide_eq_false hunstored
  have hdevs := run_handlers_events
    { feed with last_update := some (FeedUpdate.ofItem item).updated }
    (FeedUpdate.ofItem item) feed.get_id pend
  have hmain : poll_task canonBills L st feed item =
      ⟨st',
       { feed with last_update := some (FeedUpdate.ofItem item).updated },
       List.replicate (L.filter (fun l => l.meets_conditions (FeedUpdate.ofItem item))).length
           (BillEvent.persist feed.get_id (FeedUpdate.ofItem item).guid) ++
         (run_handlers { feed with last_update := some (FeedUpdate.ofItem item).updated }
            (FeedUpdate.ofItem item) feed.get_id pend).1,
       (run_handlers { feed with last_update := some (FeedUpdate.ofItem item).updated }
          (FeedUpdate.ofItem item) feed.get_id pend).2⟩ := by
    have hhs : canonBills.has_update_stored st feed.get_id (FeedUpdate.ofItem item) =
        Except.ok false := by
      simp [canonBills, hdec]
    unfold poll_task Feed.process_poll_item
    rw [hfresh]
    simp only [hhs, hloop]
  rw [hmain, hdevs]
  refine ⟨rfl, ?_, ?_, fun hne => hmem hne⟩
  · rw [List.countP_append, List.countP_map, countP_replicate_eval]
    simp [Function.comp, BillEvent.isPersist, BillEvent.isDispatch, List.countP_false]
  · rw [List.countP_append, List.countP_map, countP_replicate_eval]
    have hcomp : ((fun e => e.isDispatch) ∘
        (fun p : Nat × TrackerListener =>
          BillEvent.dispatch p.1 feed.get_id (FeedUpdate.ofItem item).guid)) =
        fun _ => true := rfl
    rw [hcomp, List.countP_true, hlen]
    simp [BillEvent.isDispatch]

/-- A listener whose callback succeeds, registered for all updates. -/
def listener_ok : TrackerListener :=
  ⟨fun _ _ => .ok (), [Conditions.ALL]⟩

/-- The bill url/feed/entry of the C1 scenario. -/
def c1_feed : Feed :=
  Feed.mk_new "https://bills.example/bills/9"

def c1_item : Item :=
  ⟨"https://bills.example/bills/9", none, [], "t", "d", 5⟩

/-- The first and second presentations of the same entry to a tracker with
two always-matching listeners, over the canonical storage. -/
def c1_first : BillTaskResult (List (Nat × String)) :=
  poll_task canonBills [listener_ok, listener_ok] [] c1_feed c1_item

def c1_second : BillTaskResult (List (Nat × String)) :=
  poll_task canonBills [listener_ok, listener_ok] c1_first.storage c1_first.feed c1_item

/-- C1 counterexample: with two registered (always-matching) listeners,
feeding the same entry twice produces two listener dispatches and two
`add_feed_update` calls — not exactly one of each as claimed; persistence
is once per matching listener. -/
theorem c1_counterexample :
    (c1_first.events ++ c1_second.events).countP (fun e => e.isDispatch) = 2 ∧
    (c1_first.events ++ c1_second.events).countP (fun e => e.isPersist) = 2 ∧
    (2 : Nat) ≠ 1 :=
  ⟨by decide, by decide, by decide⟩

/-- C1 (amended): feeding the same entry (same guid and update timestamp) to
the tracker twice results in exactly one listener dispatch and one
`add_feed_update` call *per matching listener*, all during the first
presentation; the second presentation is discarded by the timestamp
comparison and produces no dispatch and no persist. -/
theorem dedup_per_matching_listener (L : List TrackerListener)
    (st : List (Nat × String)) (feed : Feed) (item : Item)
    (hfresh : feed.last_update = none)
    (hunstored : (feed.get_id, (FeedUpdate.ofItem item).guid) ∉ st) :
    (poll_task canonBills L st feed item).events.countP (fun e => e.isPersist) =
      (L.filter (fun l => l.meets_conditions (FeedUpdate.ofItem item))).length ∧
    (poll_task canonBills L st feed item).events.countP (fun e => e.isDispatch) =
      (L.filter (fun l => l.meets_conditions (FeedUpdate.ofItem item))).length ∧
    (poll_task canonBills L (poll_task canonBills L st feed item).storage
        (poll_task canonBills L st feed item).feed item).events = [] := by
  obtain ⟨hfeed, hp, hd, _⟩ := poll_task_fresh_canon L st feed item hfresh hunstored
  refine ⟨hp, hd, ?_⟩
  rw [poll_task_same_item]
  rw [hfeed]

/-- C1 witness: the amended statement at the concrete two-listener input. -/
theorem dedup_per_matching_listener_witness :
    c1_first.events.countP (fun e => e.isPersist) =
      ([listener_ok, listener_ok].filter
        (fun l => l.meets_conditions (FeedUpdate.ofItem c1_item))).length ∧
    c1_first.events.countP (fun e => e.isDispatch) =
      ([listener_ok, listener_ok].filter
        (fun l => l.meets_conditions (FeedUpdate.ofItem c1_item))).length ∧
    c1_second.events = [] :=
  dedup_per_matching_listener [listener_ok, listener_ok] [] c1_feed c1_item rfl
    (by decide)

/-! #### Division-side event lemmas -/

/-- Every event the division listener gather emits is a dispatch. -/
theorem run_div_listeners_dispatches (division : TrackedDivision) (bill : Option SBill) :
    ∀ (ls : List DivListener) (i : Nat),
      ∀ e ∈ (run_div_listeners division bill ls i).1, e.isDispatch = true := by
  intro ls
  induction ls with
  | nil =>
    intro i e he
    cases he
  | cons l rest ih =>
    intro i e he
    cases hr : run_div_listeners division bill rest (i + 1) with
    | mk evs err =>
      simp only [run_div_listeners, hr] at he
      rcases List.mem_cons.mp he with h | h
      · subst h
        rfl
      · have := ih (i + 1) e
        rw [hr] at this
        exact this h

/-- Path equation: a failing division fetch aborts the task at once. -/
theorem division_task_eq_getdiv_error (ops : DivisionStorageOps σ)
    (getDivision : Nat → Bool → Except String TrackedDivision)
    (searchBills : String → Except String (List SBill)) (ll cl : List DivListener)
    (st : σ) (id : Nat) (b : Bool) (e : String)
    (hg : getDivision id b = .error e) :
    division_task ops getDivision searchBills ll cl st id b = ⟨st, [], some e⟩ := by
  unfold division_task
  rw [hg]

/-- Path equation: an already-stored division is skipped before any
persist or dispatch. -/
theorem division_task_eq_already_stored (ops : DivisionStorageOps σ)
    (getDivision : Nat → Bool → Except String TrackedDivision)
    (searchBills : String → Except String (List SBill)) (ll cl : List DivListener)
    (st : σ) (id : Nat) (b : Bool) (d : TrackedDivision)
    (hg : getDivision id b = .ok d) (hds : ops.division_stored st d = .ok true) :
    division_task ops getDivision searchBills ll cl st id b = ⟨st, [], none⟩ := by
  unfold division_task
  rw [hg]
  dsimp only
  rw [hds]

/-- Path equation: a failing bill search aborts the task before any
persist or dispatch. -/
theorem division_task_eq_search_error (ops : DivisionStorageOps σ)
    (getDivision : Nat → Bool → Except String TrackedDivision)
    (searchBills : String → Except String (List SBill)) (ll cl : List DivListener)
    (st : σ) (id : Nat) (b : Bool) (d : TrackedDivision) (e : String)
    (hg : getDivision id b = .ok d) (hds : ops.division_stored st d = .ok false)
    (hpc : py_contains d.title "Bill" = true)
    (hsb : searchBills (bill_section d.title) = .error e) :
    division_task ops getDivision searchBills ll cl st id b = ⟨st, [], some e⟩ := by
  unfold division_task
  rw [hg]
  dsimp only
  rw [hds]
  dsimp only
  rw [if_pos hpc, hsb]

/-- Path equation: an already-stored (bill, division) association is
skipped before any persist or dispatch. -/
theorem division_task_eq_bill_stored (ops : DivisionStorageOps σ)
    (getDivision : Nat → Bool → Except String TrackedDivision)
    (searchBills : String → Except String (List SBill)) (ll cl : List DivListener)
    (st : σ) (id : Nat) (b : Bool) (d : TrackedDivision) (bills : List SBill)
    (bb : SBill)
    (hg : getDivision id b = .ok d) (hds : ops.division_stored st d = .ok false)
    (hpc : py_contains d.title "Bill" = true)
    (hsb : searchBills (bill_section d.title) = .ok bills)
    (hab : associate_bill d.title bills = some bb)
    (hbd : ops.bill_division_stored st bb.bill_id d = .ok true) :
    division_task ops getDivision searchBills ll cl st id b = ⟨st, [], none⟩ := by
  unfold division_task
  rw [hg]
  dsimp only
  rw [hds]
  dsimp only
  rw [if_pos hpc, hsb]
  dsimp only
  rw [hab]
  dsimp only
  rw [hbd]

/-- Path equation: a division whose title does not mention "Bill" is
persisted standalone and then dispatched. -/
theorem division_task_eq_no_bill_word (ops : DivisionStorageOps σ)
    (getDivision : Nat → Bool → Except String TrackedDivision)
    (searchBills : String → Except String (List SBill)) (ll cl : List DivListener)
    (st : σ) (id : Nat) (b : Bool) (d : TrackedDivision) (st' : σ)
    (hg : getDivision id b = .ok d) (hds : ops.division_stored st d = .ok false)
    (hpc : py_contains d.title "Bill" = false)
    (hadd : ops.add_division st d = .ok st') :
    division_task ops getDivision searchBills ll cl st id b =
      ⟨st',
       DivEvent.persist_division d.division_id ::
         (run_div_listeners d none (if d.is_lords then ll else cl) 0).1,
       (run_div_listeners d none (if d.is_lords then ll else cl) 0).2⟩ := by
  unfold division_task
  rw [hg]
  dsimp only
  rw [hds]
  dsimp only
  rw [if_neg (by simp [hpc])]
  dsimp only
  rw [hadd]

/-- Path equation: a "Bill"-titled division with no matching search result
is persisted standalone and then dispatched. -/
theorem division_task_eq_no_match (ops : DivisionStorageOps σ)
    (getDivision : Nat → Bool → Except String TrackedDivision)
    (searchBills : String → Except String (List SBill)) (ll cl : List DivListener)
    (st : σ) (id : Nat) (b : Bool) (d : TrackedDivision) (bills : List SBill) (st' : σ)
    (hg : getDivision id b = .ok d) (hds : ops.division_stored st d = .ok false)
    (hpc : py_contains d.title "Bill" = true)
    (hsb : searchBills (bill_section d.title) = .ok bills)
    (hab : associate_bill d.title bills = none)
    (hadd : ops.add_division st d = .ok st') :
    division_task ops getDivision searchBills ll cl st id b =
      ⟨st',
       DivEvent.persist_division d.division_id ::
         (run_div_listeners d none (if d.is_lords then ll else cl) 0).1,
       (run_div_listeners d none (if d.is_lords then ll else cl) 0).2⟩ := by
  unfold division_task
  rw [hg]
  dsimp only
  rw [hds]
  dsimp only
  rw [if_pos hpc, hsb]
  dsimp only
  rw [hab]
  dsimp only
  rw [hadd]

/-- Path equation: a matched (bill, division) pair not yet stored is
persisted as a bill-division association and then dispatched. -/
theorem division_task_eq_bill_match (ops : DivisionStorageOps σ)
    (getDivision : Nat → Bool → Except String TrackedDivision)
    (searchBills : String → Except String (List SBill)) (ll cl : List DivListener)
    (st : σ) (id : Nat) (b : Bool) (d : TrackedDivision) (bills : List SBill)
    (bb : SBill) (st' : σ)
    (hg : getDivision id b = .ok d) (hds : ops.division_stored st d = .ok false)
    (hpc : py_contains d.title "Bill" = true)
    (hsb : searchBills (bill_section d.title) = .ok bills)
    (hab : associate_bill d.title bills = some bb)
    (hbd : ops.bill_division_stored st bb.bill_id d = .ok false)
    (hadd : ops.add_bill_division st bb.bill_id d = .ok st') :
    division_task ops getDivision searchBills ll cl st id b =
      ⟨st',
       DivEvent.persist_bill_division bb.bill_id d.division_id ::
         (run_div_listeners d (some bb) (if d.is_lords then ll else cl) 0).1,
       (run_div_listeners d (some bb) (if d.is_lords then ll else cl) 0).2⟩ := by
  unfold division_task
  rw [hg]
  dsimp only
  rw [hds]
  dsimp only
  rw [if_pos hpc, hsb]
  dsimp only
  rw [hab]
  dsimp only
  rw [hbd]
  dsimp only
  rw [hadd]

/-- Path equation: a raising `division_stored` check aborts the task. -/
theorem division_task_eq_stored_error (ops : DivisionStorageOps σ)
    (getDivision : Nat → Bool → Except String TrackedDivision)
    (searchBills : String → Except String (List SBill)) (ll cl : List DivListener)
    (st : σ) (id : Nat) (b : Bool) (d : TrackedDivision) (e : String)
    (hg : getDivision id b = .ok d) (hds : ops.division_stored st d = .error e) :
    division_task ops getDivision searchBills ll cl st id b = ⟨st, [], some e⟩ := by
  unfold division_task
  rw [hg]
  dsimp only
  rw [hds]

/-- Path equation: a raising `add_division` aborts the task after the
dedup checks (no-"Bill"-in-title path). -/
theorem division_task_eq_add_error_no_bill_word (ops : DivisionStorageOps σ)
    (getDivision : Nat → Bool → Except String TrackedDivision)
    (searchBills : String → Except String (List SBill)) (ll cl : List DivListener)
    (st : σ) (id : Nat) (b : Bool) (d : TrackedDivision) (e : String)
    (hg : getDivision id b = .ok d) (hds : ops.division_stored st d = .ok false)
    (hpc : py_contains d.title "Bill" = false)
    (hadd : ops.add_division st d = .error e) :
    division_task ops getDivision searchBills ll cl st id b = ⟨st, [], some e⟩ := by
  unfold division_task
  rw [hg]
  dsimp only
  rw [hds]
  dsimp only
  rw [if_neg (by simp [hpc])]
  dsimp only
  rw [hadd]

/-- Path equation: a raising `add_division` aborts the task after the
dedup checks (no-matching-search-result path). -/
theorem division_task_eq_add_error_no_match (ops : DivisionStorageOps σ)
    (getDivision : Nat → Bool → Except String TrackedDivision)
    (searchBills : String → Except String (List SBill)) (ll cl : List DivListener)
    (st : σ) (id : Nat) (b : Bool) (d : TrackedDivision) (bills : List SBill) (e : String)
    (hg : getDivision id b = .ok d) (hds : ops.division_stored st d = .ok false)
    (hpc : py_contains d.title "Bill" = true)
    (hsb : searchBills (bill_section d.title) = .ok bills)
    (hab : associate_bill d.title bills = none)
    (hadd : ops.add_division st d = .error e) :
    division_task ops getDivision searchBills ll cl st id b = ⟨st, [], some e⟩ := by
  unfold division_task
  rw [hg]
  dsimp only
  rw [hds]
  dsimp only
  rw [if_pos hpc, hsb]
  dsimp only
  rw [hab]
  dsimp only
  rw [hadd]

/-- Path equation: a raising `bill_division_stored` check aborts the task. -/
theorem division_task_eq_bill_stored_error (ops : DivisionStorageOps σ)
    (getDivision : Nat → Bool → Except String TrackedDivision)
    (searchBills : String → Except String (List SBill)) (ll cl : List DivListener)
    (st : σ) (id : Nat) (b : Bool) (d : TrackedDivision) (bills : List SBill)
    (bb : SBill) (e : String)
    (hg : getDivision id b = .ok d) (hds : ops.division_stored st d = .ok false)
    (hpc : py_contains d.title "Bill" = true)
    (hsb : searchBills (bill_section d.title) = .ok bills)
    (hab : associate_bill d.title bills = some bb)
    (hbd : ops.bill_division_stored st bb.bill_id d = .error e) :
    division_task ops getDivision searchBills ll cl st id b = ⟨st, [], some e⟩ := by
  unfold division_task
  rw [hg]
  dsimp only
  rw [hds]
  dsimp only
  rw [if_pos hpc, hsb]
  dsimp only
  rw [hab]
  dsimp only
  rw [hbd]

/-- Path equation: a raising `add_bill_division` aborts the task. -/
theorem division_task_eq_add_bill_error (ops : DivisionStorageOps σ)
    (getDivision : Nat → Bool → Except String TrackedDivision)
    (searchBills : String → Except String (List SBill)) (ll cl : List DivListener)
    (st : σ) (id : Nat) (b : Bool) (d : TrackedDivision) (bills : List SBill)
    (bb : SBill) (e : String)
    (hg : getDivision id b = .ok d) (hds : ops.division_stored st d = .ok false)
    (hpc : py_contains d.title "Bill" = true)
    (hsb : searchBills (bill_section d.title) = .ok bills)
    (hab : associate_bill d.title bills = some bb)
    (hbd : ops.bill_division_stored st bb.bill_id d = .ok false)
    (hadd : ops.add_bill_division st bb.bill_id d = .error e) :
    division_task ops getDivision searchBills ll cl st id b = ⟨st, [], some e⟩ := by
  unfold division_task
  rw [hg]
  dsimp only
  rw [hds]
  dsimp only
  rw [if_pos hpc, hsb]
  dsimp only
  rw [hab]
  dsimp only
  rw [hbd]
  dsimp only
  rw [hadd]

/-- `division_task` emits its (sole) persist before any dispatch, for any
storage implementation: the event list splits into persists followed by
dispatches. -/
theorem division_task_events_shape (σ : Type) (ops : DivisionStorageOps σ)
    (getDivision : Nat → Bool → Except String TrackedDivision)
    (searchBills : String → Except String (List SBill))
    (ll cl : List DivListener) (st : σ) (id : Nat) (b : Bool) :
    ∃ P D, (division_task ops getDivision searchBills ll cl st id b).events = P ++ D ∧
      (∀ e ∈ P, e.isPersist = true) ∧ (∀ e ∈ D, e.isDispatch = true) := by
  have hempty : ∀ r : DivTaskResult σ, r.events = [] →
      ∃ P D, r.events = P ++ D ∧
        (∀ e ∈ P, e.isPersist = true) ∧ (∀ e ∈ D, e.isDispatch = true) := by
    intro r hr
    exact ⟨[], [], by simp [hr], by simp, by simp⟩
  cases hg : getDivision id b with
  | error e =>
    exact hempty _ (by rw [division_task_eq_getdiv_error ops getDivision searchBills
      ll cl st id b e hg])
  | ok d =>
    cases hds : ops.division_stored st d with
    | error e =>
      exact hempty _ (by rw [division_task_eq_stored_error ops getDivision searchBills
        ll cl st id b d e hg hds])
    | ok b1 =>
      cases b1 with
      | true =>
        exact hempty _ (by rw [division_task_eq_already_stored ops getDivision searchBills
          ll cl st id b d hg hds])
      | false =>
        cases hpc : py_contains d.title "Bill" with
        | false =>
          cases hadd : ops.add_division st d with
          | error e =>
            exact hempty _ (by rw [division_task_eq_add_error_no_bill_word ops getDivision
              searchBills ll cl st id b d e hg hds hpc hadd])
          | ok st' =>
            rw [division_task_eq_no_bill_word ops getDivision searchBills ll cl st id b d
              st' hg hds hpc hadd]
            refine ⟨[DivEvent.persist_division d.division_id],
              (run_div_listeners d none (if d.is_lords then ll else cl) 0).1,
              rfl, ?_, fun e he => run_div_listeners_dispatches d none _ 0 e he⟩
            intro e he
            rcases List.mem_cons.mp he with h | h
            · subst h
              rfl
            · cases h
        | true =>
          cases hsb : searchBills (bill_section d.title) with
          | error e =>
            exact hempty _ (by rw [division_task_eq_search_error ops getDivision searchBills
              ll cl st id b d e hg hds hpc hsb])
          | ok bills =>
            cases hab : associate_bill d.title bills with
            | none =>
              cases hadd : ops.add_division st d with
              | error e =>
                exact hempty _ (by rw [division_task_eq_add_error_no_match ops getDivision
                  searchBills ll cl st id b d bills e hg hds hpc hsb hab hadd])
              | ok st' =>
                rw [division_task_eq_no_match ops getDivision searchBills ll cl st id b d
                  bills st' hg hds hpc hsb hab hadd]
                refine ⟨[DivEvent.persist_division d.division_id],
                  (run_div_listeners d none (if d.is_lords then ll else cl) 0).1,
                  rfl, ?_, fun e he => run_div_listeners_dispatches d none _ 0 e he⟩
                intro e he
                rcases List.mem_cons.mp he with h | h
                · subst h
                  rfl
                · cases h
            | some bb =>
              cases hbd : ops.bill_division_stored st bb.bill_id d with
              | error e =>
                exact hempty _ (by rw [division_task_eq_bill_stored_error ops getDivision
                  searchBills ll cl st id b d bills bb e hg hds hpc hsb hab hbd])
              | ok b2 =>
                cases b2 with
                | true =>
                  exact hempty _ (by rw [division_task_eq_bill_stored ops getDivision
                    searchBills ll cl st id b d bills bb hg hds hpc hsb hab hbd])
                | false =>
                  cases hadd : ops.add_bill_division st bb.bill_id d with
                  | error e =>
                    exact hempty _ (by rw [division_task_eq_add_bill_error ops getDivision
                      searchBills ll cl st id b d bills bb e hg hds hpc hsb hab hbd hadd])
                  | ok st' =>
                    rw [division_task_eq_bill_match ops getDivision searchBills ll cl st id
                      b d bills bb st' hg hds hpc hsb hab hbd hadd]
                    refine ⟨[DivEvent.persist_bill_division bb.bill_id d.division_id],
                      (run_div_listeners d (some bb) (if d.is_lords then ll else cl) 0).1,
                      rfl, ?_,
                      fun e he => run_div_listeners_dispatches d (some bb) _ 0 e he⟩
                    intro e he
                    rcases List.mem_cons.mp he with h | h
                    · subst h
                      rfl
                    · cases h

/-- With the canonical division storage, re-running `division_task` for the
same division id against the storage state the first run left behind
produces no events at all: every path is blocked by `division_stored` /
`bill_division_stored` (or repeats the same failure before persisting). -/
theorem division_task_canon_no_redispatch
    (getDivision : Nat → Bool → Except String TrackedDivision)
    (searchBills : String → Except String (List SBill))
    (ll cl : List DivListener) (st : List (Option Nat × Nat)) (id : Nat) (b : Bool) :
    (division_task canonDivisions getDivision searchBills ll cl
      (division_task canonDivisions getDivision searchBills ll cl st id b).storage
      id b).events = [] := by
  cases hg : getDivision id b with
  | error e =>
    rw [division_task_eq_getdiv_error canonDivisions getDivision searchBills ll cl
      (division_task canonDivisions getDivision searchBills ll cl st id b).storage
      id b e hg]
  | ok d =>
    by_cases h1 : ((none : Option Nat), d.division_id) ∈ st
    · have hsd : canonDivisions.division_stored st d = .ok true := by
        simp [canonDivisions, h1]
      rw [division_task_eq_already_stored canonDivisions getDivision searchBills ll cl
        st id b d hg hsd]
      rw [division_task_eq_already_stored canonDivisions getDivision searchBills ll cl
        st id b d hg hsd]
    · have hsd : canonDivisions.division_stored st d = .ok false := by
        simp [canonDivisions, h1]
      cases hpc : py_contains d.title "Bill" with
      | false =>
        have hadd : canonDivisions.add_division st d =
            .ok (((none : Option Nat), d.division_id) :: st) := rfl
        rw [division_task_eq_no_bill_word canonDivisions getDivision searchBills ll cl
          st id b d (((none : Option Nat), d.division_id) :: st) hg hsd hpc hadd]
        have hsd2 : canonDivisions.division_stored
            (((none : Option Nat), d.division_id) :: st) d = .ok true := by
          simp [canonDivisions]
        rw [division_task_eq_already_stored canonDivisions getDivision searchBills ll cl
          (((none : Option Nat), d.division_id) :: st) id b d hg hsd2]
      | true =>
        cases hsb : searchBills (bill_section d.title) with
        | error e =>
          rw [division_task_eq_search_error canonDivisions getDivision searchBills ll cl
            st id b d e hg hsd hpc hsb]
          rw [division_task_eq_search_error canonDivisions getDivision searchBills ll cl
            st id b d e hg hsd hpc hsb]
        | ok bills =>
          cases hab : associate_bill d.title bills with
          | none =>
            have hadd : canonDivisions.add_division st d =
                .ok (((none : Option Nat), d.division_id) :: st) := rfl
            rw [division_task_eq_no_match canonDivisions getDivision searchBills ll cl
              st id b d bills (((none : Option Nat), d.division_id) :: st)
              hg hsd hpc hsb hab hadd]
            have hsd2 : canonDivisions.division_stored
                (((none : Option Nat), d.division_id) :: st) d = .ok true := by
              simp [canonDivisions]
            rw [division_task_eq_already_stored canonDivisions getDivision searchBills
              ll cl (((none : Option Nat), d.division_id) :: st) id b d hg hsd2]
          | some bb =>
            by_cases h2 : ((some bb.bill_id : Option Nat), d.division_id) ∈ st
            · have hbd : canonDivisions.bill_division_stored st bb.bill_id d = .ok true := by
                simp [canonDivisions, h2]
              rw [division_task_eq_bill_stored canonDivisions getDivision searchBills
                ll cl st id b d bills bb hg hsd hpc hsb hab hbd]
              rw [division_task_eq_bill_stored canonDivisions getDivision searchBills
                ll cl st id b d bills bb hg hsd hpc hsb hab hbd]
            · have hbd : canonDivisions.bill_division_stored st bb.bill_id d = .ok false := by
                simp [canonDivisions, h2]
              have hadd : canonDivisions.add_bill_division st bb.bill_id d =
                  .ok (((some bb.bill_id : Option Nat), d.division_id) :: st) := rfl
              rw [division_task_eq_bill_match canonDivisions getDivision searchBills ll cl
                st id b d bills bb
                (((some bb.bill_id : Option Nat), d.division_id) :: st)
                hg hsd hpc hsb hab hbd hadd]
              have hsd2 : canonDivisions.division_stored
                  (((some bb.bill_id : Option Nat), d.division_id) :: st) d = .ok false := by
                simp [canonDivisions, h1]
              have hbd2 : canonDivisions.bill_division_stored
                  (((some bb.bill_id : Option Nat), d.division_id) :: st) bb.bill_id d =
                  .ok true := by
                simp [canonDivisions]
              rw [division_task_eq_bill_stored canonDivisions getDivision searchBills
                ll cl (((some bb.bill_id : Option Nat), d.division_id) :: st) id b d
                bills bb hg hsd2 hpc hsb hab hbd2]

/-- `_poll_task` events split into the persists (awaited inside the
listener loop) followed by the dispatches (run by the final gather), for
any storage implementation. -/
theorem poll_task_events_shape (σ : Type) (ops : BillsStorageOps σ)
    (L : List TrackerListener) (st : σ) (feed : Feed) (item : Item) :
    ∃ P D, (poll_task ops L st feed item).events = P ++ D ∧
      (∀ e ∈ P, e.isPersist = true) ∧ (∀ e ∈ D, e.isDispatch = true) := by
  unfold poll_task
  cases h : feed.process_poll_item item with
  | mk f' o =>
    cases o with
    | none => exact ⟨[], [], rfl, by simp, by simp⟩
    | some u =>
      dsimp only
      cases hs : ops.has_update_stored st feed.get_id u with
      | error e => exact ⟨[], [], rfl, by simp, by simp⟩
      | ok b1 =>
        cases b1 with
        | true => exact ⟨[], [], rfl, by simp, by simp⟩
        | false =>
          dsimp only
          cases hd : dispatch_loop ops feed.get_id u st L 0 with
          | mk st' rest =>
            rcases rest with ⟨persists, pend, err⟩
            have hps : ∀ e ∈ persists, e.isPersist = true := by
              intro e he
              have hall := dispatch_loop_persists ops feed.get_id u L st 0 e
              rw [hd] at hall
              exact hall he
            cases err with
            | some e => exact ⟨persists, [], by simp, hps, by simp⟩
            | none =>
              dsimp only
              cases hrun : run_handlers f' u feed.get_id pend with
              | mk devs herr =>
                refine ⟨persists, devs, rfl, hps, ?_⟩
                intro e he
                have hre := run_handlers_events f' u feed.get_id pend
                rw [hrun] at hre
                dsimp only at hre
                subst hre
                rcases List.mem_map.mp he with ⟨p, hp, rfl⟩
                rfl

/-- With the canonical bills storage, once an entry has been presented to a
fresh feed, presenting it again — to the evolved feed or to any feed with
the same bill id — produces no events, provided some listener matched it
(so it was persisted) or it was already stored. -/
theorem poll_task_canon_no_redispatch (L : List TrackerListener)
    (st : List (Nat × String)) (feed feed2 : Feed) (item : Item)
    (hfresh : feed.last_update = none) (hid : feed2.get_id = feed.get_id)
    (hmatch : ∃ l ∈ L, l.meets_conditions (FeedUpdate.ofItem item) = true) :
    (poll_task canonBills L (poll_task canonBills L st feed item).storage
      feed2 item).events = [] := by
  by_cases hst : (feed.get_id, (FeedUpdate.ofItem item).guid) ∈ st
  · rw [poll_task_fresh_stored_canon L st feed item hfresh hst]
    apply poll_task_stored_canon
    rw [hid]
    exact hst
  · obtain ⟨_, _, _, hmem⟩ := poll_task_fresh_canon L st feed item hfresh hst
    have hn : (L.filter
        (fun l => l.meets_conditions (FeedUpdate.ofItem item))).length ≠ 0 := by
      obtain ⟨l, hl, hml⟩ := hmatch
      have hmf : l ∈ L.filter (fun l => l.meets_conditions (FeedUpdate.ofItem item)) :=
        List.mem_filter.mpr ⟨hl, hml⟩
      intro h0
      rw [List.length_eq_zero] at h0
      rw [h0] at hmf
      cases hmf
    apply poll_task_stored_canon
    rw [hid]
    exact hmem hn

/-- C10: in both trackers, the storage persist is issued before the
listener callbacks are awaited — the event sequence of a `_poll_task` /
`division_task` run is persists followed by dispatches, for any storage —
and, over the canonical storages, an update delivered once (to a fresh feed
with a matching listener, or any division) is never dispatched again on a
later cycle, even when a listener callback raised: the persist preceded the
failure, so the re-presentation is discarded by the stored-check. -/
theorem persist_before_dispatch :
    (∀ (σ : Type) (ops : BillsStorageOps σ) (L : List TrackerListener) (st : σ)
       (feed : Feed) (item : Item),
       ∃ P D, (poll_task ops L st feed item).events = P ++ D ∧
         (∀ e ∈ P, e.isPersist = true) ∧ (∀ e ∈ D, e.isDispatch = true)) ∧
    (∀ (L : List TrackerListener) (st : List (Nat × String)) (feed feed2 : Feed)
       (item : Item),
       feed.last_update = none → feed2.get_id = feed.get_id →
       (∃ l ∈ L, l.meets_conditions (FeedUpdate.ofItem item) = true) →
       (poll_task canonBills L (poll_task canonBills L st feed item).storage
          feed2 item).events = []) ∧
    (∀ (σ : Type) (ops : DivisionStorageOps σ)
       (getDivision : Nat → Bool → Except String TrackedDivision)
       (searchBills : String → Except String (List SBill))
       (ll cl : List DivListener) (st : σ) (id : Nat) (b : Bool),
       ∃ P D, (division_task ops getDivision searchBills ll cl st id b).events = P ++ D ∧
         (∀ e ∈ P, e.isPersist = true) ∧ (∀ e ∈ D, e.isDispatch = true)) ∧
    (∀ (getDivision : Nat → Bool → Except String TrackedDivision)
       (searchBills : String → Except String (List SBill))
       (ll cl : List DivListener) (st : List (Option Nat × Nat)) (id : Nat) (b : Bool),
       (division_task canonDivisions getDivision searchBills ll cl
         (division_task canonDivisions getDivision searchBills ll cl st id b).storage
         id b).events = []) :=
  ⟨poll_task_events_shape, poll_task_canon_no_redispatch,
   division_task_events_shape, division_task_canon_no_redispatch⟩

/-- A concrete division fetch and bill search for the C10 witness. -/
def c10_getDiv : Nat → Bool → Except String TrackedDivision :=
  fun did _ => .ok ⟨did, "Test Division", false⟩

def c10_search : String → Except String (List SBill) :=
  fun _ => .ok []

/-- C10 witness: all four parts at concrete inputs — one always-matching
listener for the bills side, a bill-less commons division for the
divisions side. -/
theorem persist_before_dispatch_witness :
    (∃ P D, (poll_task canonBills [listener_ok] [] c1_feed c1_item).events = P ++ D ∧
       (∀ e ∈ P, e.isPersist = true) ∧ (∀ e ∈ D, e.isDispatch = true)) ∧
    (poll_task canonBills [listener_ok]
       (poll_task canonBills [listener_ok] [] c1_feed c1_item).storage
       c1_feed c1_item).events = [] ∧
    (∃ P D, (division_task canonDivisions c10_getDiv c10_search [] [] [] 77 false).events
         = P ++ D ∧
       (∀ e ∈ P, e.isPersist = true) ∧ (∀ e ∈ D, e.isDispatch = true)) ∧
    (division_task canonDivisions c10_getDiv c10_search [] []
      (division_task canonDivisions c10_getDiv c10_search [] [] [] 77 false).storage
      77 false).events = [] :=
  ⟨persist_before_dispatch.1 _ canonBills [listener_ok] [] c1_feed c1_item,
   persist_before_dispatch.2.1 [listener_ok] [] c1_feed c1_feed c1_item rfl rfl
     ⟨listener_ok, by simp, by decide⟩,
   persist_before_dispatch.2.2.1 _ canonDivisions c10_getDiv c10_search [] [] [] 77 false,
   persist_before_dispatch.2.2.2 c10_getDiv c10_search [] [] [] 77 false⟩

end UKParl
